import Mathlib

/-!
# libeatmydata: a shallow embedding of `libeatmydata/libeatmydata.c`

The embedding covers the `#ifndef __APPLE__` branch of the file (the branch
that owns the resolved-symbol table and the `initing` flag).

* The static variables (`libc_open` .. `libc_sync_file_range`, `initing`) and
  `errno` are the fields of `State`; a function pointer is a `Nat`, `0` being
  `NULL`.
* Everything the library calls that is not part of the file (`dlsym`,
  `dlerror`, `stat`, `pthread_testcancel`, the functions behind the resolved
  pointers) is an oracle of `Env`.  Each such call is appended to
  `State.trace`, and every oracle sees the trace so far, so its answer may
  depend on the whole history of external calls.
* Values that come from `config.h` and the system headers (`CHECK_FILE`,
  `HAVE_SYNC_FILE_RANGE`, `SIZEOF_MODE_T`, `SIZEOF_INT`, `O_SYNC`, `O_DSYNC`,
  `O_CREAT`, `EFAULT`) are the fields of `Config`.
* A C function is a function `State → Outcome α`: it returns, or the process
  is gone through `_exit`, or it has called through a `NULL` pointer, or the
  calling thread has been cancelled at `pthread_testcancel`.
* The `struct stat` buffer of `eatmydata_is_hungry` is written by `stat` and
  never read; it is not part of the state.
* The overrides carry the names the macro `EATMYDATA(x)` gives them in its
  `eatmydata_ ## x` form (`eatmydata_open`, `eatmydata_fsync`, ...), `open`
  being a keyword here. The first variadic slot of `open` / `open64` is the
  argument `va`: the overrides read it on every call.
-/

namespace Eatmydata

/-- The names handed to `dlsym(RTLD_NEXT, #name)`. -/
inductive Sym where
  | sym_open
  | sym_open64
  | sym_fsync
  | sym_sync
  | sym_fdatasync
  | sym_msync
  | sym_sync_file_range
  deriving DecidableEq, Repr

/-- The argument tuple of a call forwarded through `REAL(x)`. -/
inductive Call where
  | call_open (pathname : String) (flags : Int) (mode : Int)
  | call_open64 (pathname : String) (flags : Int) (mode : Int)
  | call_fsync (fd : Int)
  | call_sync
  | call_fdatasync (fd : Int)
  | call_msync (addr : Nat) (length : Nat) (flags : Int)
  | call_sync_file_range (fd : Int) (offset : Int) (nbytes : Int) (flags : Nat)
  deriving DecidableEq, Repr

/-- The external actions of the library, in the order they happen.
`pthread_testcancel` records the value `errno` had when the check ran. -/
inductive Event where
  | dlsym (name : Sym)
  | dlerror
  | stat (path : String)
  | pthread_testcancel (errno_seen : Int)
  | real (ptr : Nat) (c : Call)
  deriving DecidableEq, Repr

/-- The process-wide variables of the file, `errno`, and the external actions
performed so far. -/
structure State where
  libc_open : Nat
  libc_open64 : Nat
  libc_fsync : Nat
  libc_sync : Nat
  libc_fdatasync : Nat
  libc_msync : Nat
  libc_sync_file_range : Nat
  initing : Int
  errno : Int
  trace : List Event
  deriving DecidableEq, Repr

/-- Build configuration and header constants. `CHECK_FILE = none` is the
build in which `CHECK_FILE` is not defined. -/
structure Config where
  CHECK_FILE : Option String
  HAVE_SYNC_FILE_RANGE : Bool
  SIZEOF_MODE_T : Nat
  SIZEOF_INT : Nat
  O_SYNC : Int
  O_DSYNC : Int
  O_CREAT : Int
  EFAULT : Int

/-- The outside world. Every oracle receives the trace of external actions so
far. `dlsym`, `stat` and `real` give the value a call returns (`real hist p c`
is the result of calling the function at address `p` with the arguments `c`);
the `_errno` oracles give the `errno` the call leaves behind, as a function of
the `errno` it found. `dlerror` answers whether it returns a non-`NULL`
string. `pthread_testcancel` answers whether a cancellation request is pending
and acted upon, in which case the call does not return: the thread ends
there. -/
structure Env where
  dlsym : List Event → Sym → Nat
  dlsym_errno : List Event → Sym → Int → Int
  dlerror : List Event → Bool
  stat : List Event → String → Int
  stat_errno : List Event → String → Int → Int
  real : List Event → Nat → Call → Int
  real_errno : List Event → Nat → Call → Int → Int
  pthread_testcancel : List Event → Bool

/-- How a C function ends. -/
inductive Outcome (α : Type) where
  | ret (v : α) (s : State)
  | exit (status : Int) (s : State)
  | fault (s : State)
  | cancelled (s : State)
  deriving DecidableEq, Repr

/-- Sequencing: the rest of the function body runs only after a return. -/
def Outcome.bind {α β : Type} (o : Outcome α) (f : α → State → Outcome β) : Outcome β :=
  match o with
  | Outcome.ret v s => f v s
  | Outcome.exit c s => Outcome.exit c s
  | Outcome.fault s => Outcome.fault s
  | Outcome.cancelled s => Outcome.cancelled s

/-- The initial values of the static variables (`= NULL`, `initing = 0`). -/
def State.initial (errno : Int) : State :=
  { libc_open := 0, libc_open64 := 0, libc_fsync := 0, libc_sync := 0,
    libc_fdatasync := 0, libc_msync := 0, libc_sync_file_range := 0,
    initing := 0, errno := errno, trace := [] }

/-- The assignment `libc_##name = p`. -/
def State.assign (s : State) (name : Sym) (p : Nat) : State :=
  match name with
  | Sym.sym_open => { s with libc_open := p }
  | Sym.sym_open64 => { s with libc_open64 := p }
  | Sym.sym_fsync => { s with libc_fsync := p }
  | Sym.sym_sync => { s with libc_sync := p }
  | Sym.sym_fdatasync => { s with libc_fdatasync := p }
  | Sym.sym_msync => { s with libc_msync := p }
  | Sym.sym_sync_file_range => { s with libc_sync_file_range := p }

/-- The value of `libc_##name`. -/
def State.entry (s : State) (name : Sym) : Nat :=
  match name with
  | Sym.sym_open => s.libc_open
  | Sym.sym_open64 => s.libc_open64
  | Sym.sym_fsync => s.libc_fsync
  | Sym.sym_sync => s.libc_sync
  | Sym.sym_fdatasync => s.libc_fdatasync
  | Sym.sym_msync => s.libc_msync
  | Sym.sym_sync_file_range => s.libc_sync_file_range

/-- The statement `libc_##name = dlsym(RTLD_NEXT, #name)`. -/
def dlsym_assign (env : Env) (name : Sym) (s : State) : State :=
  { s.assign name (env.dlsym s.trace name) with
    errno := env.dlsym_errno s.trace name s.errno,
    trace := s.trace ++ [Event.dlsym name] }

/-- The macro `ASSIGN_DLSYM_OR_DIE(name)`: `dlerror()` is evaluated only when
the pointer is not `NULL`. -/
def ASSIGN_DLSYM_OR_DIE (env : Env) (name : Sym) (s : State) : Outcome Unit :=
  let s1 := dlsym_assign env name s
  if s1.entry name = 0 then Outcome.exit 1 s1
  else if env.dlerror s1.trace then
    Outcome.exit 1 { s1 with trace := s1.trace ++ [Event.dlerror] }
  else Outcome.ret () { s1 with trace := s1.trace ++ [Event.dlerror] }

/-- The macro `ASSIGN_DLSYM_IF_EXIST(name)`: the result of `dlerror()` is
discarded. -/
def ASSIGN_DLSYM_IF_EXIST (env : Env) (name : Sym) (s : State) : Outcome Unit :=
  let s1 := dlsym_assign env name s
  Outcome.ret () { s1 with trace := s1.trace ++ [Event.dlerror] }

/-- The constructor `eatmydata_init`. -/
def eatmydata_init (cfg : Config) (env : Env) (s : State) : Outcome Unit :=
  (ASSIGN_DLSYM_OR_DIE env Sym.sym_open { s with initing := 1 }).bind fun _ s =>
  (ASSIGN_DLSYM_OR_DIE env Sym.sym_open64 s).bind fun _ s =>
  (ASSIGN_DLSYM_OR_DIE env Sym.sym_fsync s).bind fun _ s =>
  (ASSIGN_DLSYM_OR_DIE env Sym.sym_sync s).bind fun _ s =>
  (ASSIGN_DLSYM_OR_DIE env Sym.sym_fdatasync s).bind fun _ s =>
  (ASSIGN_DLSYM_OR_DIE env Sym.sym_msync s).bind fun _ s =>
  (if cfg.HAVE_SYNC_FILE_RANGE then ASSIGN_DLSYM_IF_EXIST env Sym.sym_sync_file_range s
   else Outcome.ret () s).bind fun _ s =>
  Outcome.ret () { s with initing := 0 }

/-- The macro `REAL(x)(args)`: a call through `*libc_x`. -/
def REAL (env : Env) (ptr : Nat) (c : Call) (s : State) : Outcome Int :=
  if ptr = 0 then Outcome.fault s
  else
    Outcome.ret (env.real s.trace ptr c)
      { s with errno := env.real_errno s.trace ptr c s.errno,
               trace := s.trace ++ [Event.real ptr c] }

/-- The function `eatmydata_is_hungry`. -/
def eatmydata_is_hungry (cfg : Config) (env : Env) (s : State) : Outcome Int :=
  (if s.libc_open = 0 then eatmydata_init cfg env s else Outcome.ret () s).bind fun _ s =>
  match cfg.CHECK_FILE with
  | some path =>
    let old_errno := s.errno
    let stat_ret := env.stat s.trace path
    let s1 := { s with errno := env.stat_errno s.trace path s.errno,
                       trace := s.trace ++ [Event.stat path] }
    let s2 := { s1 with errno := old_errno }
    Outcome.ret (if stat_ret = 0 then 1 else 0) s2
  | none => Outcome.ret 1 s

/-- The suppressed branch shared by the `int`-returning flush overrides:
`pthread_testcancel(); errno= 0; return 0;`. When a cancellation request is
acted upon the thread ends inside `pthread_testcancel`, before `errno= 0`. -/
def suppressed (env : Env) (s : State) : Outcome Int :=
  let s1 := { s with trace := s.trace ++ [Event.pthread_testcancel s.errno] }
  if env.pthread_testcancel s.trace then Outcome.cancelled s1
  else Outcome.ret 0 { s1 with errno := 0 }

/-- The override `fsync`. -/
def eatmydata_fsync (cfg : Config) (env : Env) (fd : Int) (s : State) : Outcome Int :=
  (eatmydata_is_hungry cfg env s).bind fun hungry s =>
  if hungry ≠ 0 then suppressed env s
  else REAL env s.libc_fsync (Call.call_fsync fd) s

/-- The override `sync`; the value of the real `sync` is dropped. -/
def eatmydata_sync (cfg : Config) (env : Env) (s : State) : Outcome Unit :=
  (eatmydata_is_hungry cfg env s).bind fun hungry s =>
  if hungry ≠ 0 then Outcome.ret () s
  else (REAL env s.libc_sync Call.call_sync s).bind fun _ s => Outcome.ret () s

/-- The lines that read `mode` from the variable argument list. `va` is the
content of the first variadic slot, whatever the caller put or left there. -/
def va_arg_mode (cfg : Config) (va : Int) : Int :=
  if cfg.SIZEOF_MODE_T < cfg.SIZEOF_INT then va % 2 ^ (8 * cfg.SIZEOF_MODE_T) else va

/-- The expression `flags & ~(O_SYNC|O_DSYNC)`. -/
def strip_sync (cfg : Config) (flags : Int) : Int :=
  Int.land flags (Int.lnot (Int.lor cfg.O_SYNC cfg.O_DSYNC))

/-- The override `open`. -/
def eatmydata_open (cfg : Config) (env : Env) (pathname : String) (flags : Int) (va : Int)
    (s : State) : Outcome Int :=
  let mode := va_arg_mode cfg va
  if s.initing ≠ 0 then Outcome.ret (-1) { s with errno := cfg.EFAULT }
  else
    (eatmydata_is_hungry cfg env s).bind fun hungry s =>
    let flags := if hungry ≠ 0 then strip_sync cfg flags else flags
    REAL env s.libc_open (Call.call_open pathname flags mode) s

/-- The override `open64`. -/
def eatmydata_open64 (cfg : Config) (env : Env) (pathname : String) (flags : Int) (va : Int)
    (s : State) : Outcome Int :=
  let mode := va_arg_mode cfg va
  if s.initing ≠ 0 then Outcome.ret (-1) { s with errno := cfg.EFAULT }
  else
    (eatmydata_is_hungry cfg env s).bind fun hungry s =>
    let flags := if hungry ≠ 0 then strip_sync cfg flags else flags
    REAL env s.libc_open64 (Call.call_open64 pathname flags mode) s

/-- The override `fdatasync`. -/
def eatmydata_fdatasync (cfg : Config) (env : Env) (fd : Int) (s : State) : Outcome Int :=
  (eatmydata_is_hungry cfg env s).bind fun hungry s =>
  if hungry ≠ 0 then suppressed env s
  else REAL env s.libc_fdatasync (Call.call_fdatasync fd) s

/-- The override `msync`. -/
def eatmydata_msync (cfg : Config) (env : Env) (addr : Nat) (length : Nat) (flags : Int)
    (s : State) : Outcome Int :=
  (eatmydata_is_hungry cfg env s).bind fun hungry s =>
  if hungry ≠ 0 then suppressed env s
  else REAL env s.libc_msync (Call.call_msync addr length flags) s

/-- The override `sync_file_range` (compiled under `HAVE_SYNC_FILE_RANGE`). -/
def eatmydata_sync_file_range (cfg : Config) (env : Env) (fd : Int) (offset : Int)
    (nbytes : Int) (flags : Nat) (s : State) : Outcome Int :=
  (eatmydata_is_hungry cfg env s).bind fun hungry s =>
  if hungry ≠ 0 then suppressed env s
  else REAL env s.libc_sync_file_range (Call.call_sync_file_range fd offset nbytes flags) s

/-! ## Concrete configurations and environments used at explicit inputs -/

/-- The shipped build: `CHECK_FILE` is commented out. Header constants as on
Linux/x86-64. -/
def cfg_unconditional : Config :=
  { CHECK_FILE := none, HAVE_SYNC_FILE_RANGE := true, SIZEOF_MODE_T := 4, SIZEOF_INT := 4,
    O_SYNC := 0x101000, O_DSYNC := 0x1000, O_CREAT := 0x40, EFAULT := 14 }

/-- The build with `#define CHECK_FILE "/tmp/eatmydata"`. -/
def cfg_marker : Config :=
  { cfg_unconditional with CHECK_FILE := some "/tmp/eatmydata" }

/-- An environment in which every lookup succeeds (pointers 101 .. 107), the
marker is absent (`stat` fails with `ENOENT = 2`) and every real primitive
fails with `-1` and `errno = 5`. -/
def env_resolving : Env :=
  { dlsym := fun _ name =>
      match name with
      | Sym.sym_open => 101
      | Sym.sym_open64 => 102
      | Sym.sym_fsync => 103
      | Sym.sym_sync => 104
      | Sym.sym_fdatasync => 105
      | Sym.sym_msync => 106
      | Sym.sym_sync_file_range => 107,
    dlsym_errno := fun _ _ e => e,
    dlerror := fun _ => false,
    stat := fun _ _ => -1,
    stat_errno := fun _ _ _ => 2,
    real := fun _ _ _ => -1,
    real_errno := fun _ _ _ _ => 5,
    pthread_testcancel := fun _ => false }

/-- As `env_resolving`, but the marker exists (`stat` returns 0). -/
def env_marker_present : Env :=
  { env_resolving with stat := fun _ _ => 0, stat_errno := fun _ _ e => e }

/-- An environment in which `dlsym(RTLD_NEXT, "open")` returns `NULL`. -/
def env_open_missing : Env :=
  { env_resolving with dlsym := fun _ name =>
      match name with
      | Sym.sym_open => 0
      | _ => 100 }

/-- As `env_resolving`, but `sync_file_range` is not found. -/
def env_no_range : Env :=
  { env_resolving with dlsym := fun _ name =>
      match name with
      | Sym.sym_sync_file_range => 0
      | _ => 100 }

/-- As `env_resolving`, but a cancellation request is pending at every
`pthread_testcancel`. -/
def env_cancel_pending : Env :=
  { env_resolving with pthread_testcancel := fun _ => true }

/-- A state in which the table has been populated by `env_resolving`. -/
def state_populated (errno : Int) : State :=
  { libc_open := 101, libc_open64 := 102, libc_fsync := 103, libc_sync := 104,
    libc_fdatasync := 105, libc_msync := 106, libc_sync_file_range := 107,
    initing := 0, errno := errno, trace := [] }

/-! ## Definitions used to state the properties -/

/-- The events of a symbol lookup: `dlsym` and `dlerror` calls. -/
def Event.is_lookup : Event → Bool
  | Event.dlsym _ => true
  | Event.dlerror => true
  | _ => false

/-- The state in which a function ends. -/
def Outcome.state {α : Type} : Outcome α → State
  | Outcome.ret _ s => s
  | Outcome.exit _ s => s
  | Outcome.fault s => s
  | Outcome.cancelled s => s

/-- All six mandatory table entries are resolved. -/
def State.populated (s : State) : Prop :=
  s.libc_open ≠ 0 ∧ s.libc_open64 ≠ 0 ∧ s.libc_fsync ≠ 0 ∧ s.libc_sync ≠ 0 ∧
    s.libc_fdatasync ≠ 0 ∧ s.libc_msync ≠ 0

/-- The second state extends the trace of the first by lookup events only. -/
def Looked (s s' : State) : Prop :=
  ∃ l : List Event, s'.trace = s.trace ++ l ∧ ∀ e ∈ l, e.is_lookup = true

/-- Spec: "forward verbatim to the resolved real implementation and propagate
its result and error state unchanged". One call of the function at address
`ptr` with the arguments `c`: the value returned and the `errno` left are
those of that call, and nothing else changes. -/
def forward_verbatim (env : Env) (ptr : Nat) (c : Call) (s : State) : Outcome Int :=
  Outcome.ret (env.real s.trace ptr c)
    { s with errno := env.real_errno s.trace ptr c s.errno,
             trace := s.trace ++ [Event.real ptr c] }

/-- The four `int`-returning flush overrides, called on the same state. -/
def flush_overrides (cfg : Config) (env : Env) (fd : Int) (addr length : Nat) (mflags : Int)
    (offset nbytes : Int) (rflags : Nat) (s : State) : List (Outcome Int) :=
  [eatmydata_fsync cfg env fd s, eatmydata_fdatasync cfg env fd s,
   eatmydata_msync cfg env addr length mflags s,
   eatmydata_sync_file_range cfg env fd offset nbytes rflags s]

/-- The outcome with the `initing` field of its state overwritten. -/
def Outcome.with_initing {α : Type} (v : Int) : Outcome α → Outcome α
  | Outcome.ret x s => Outcome.ret x { s with initing := v }
  | Outcome.exit c s => Outcome.exit c { s with initing := v }
  | Outcome.fault s => Outcome.fault { s with initing := v }
  | Outcome.cancelled s => Outcome.cancelled { s with initing := v }

/-- The six names `eatmydata_init` passes to `ASSIGN_DLSYM_OR_DIE`, in the
order of the source. -/
def mandatory : List Sym :=
  [Sym.sym_open, Sym.sym_open64, Sym.sym_fsync, Sym.sym_sync, Sym.sym_fdatasync,
   Sym.sym_msync]

/-- The external actions of successful lookups of the given names, in order. -/
def lookup_events : List Sym → List Event
  | [] => []
  | n :: ns => Event.dlsym n :: Event.dlerror :: lookup_events ns

/-- Starting from the history `hist`, the lookups of the given names, made in
order, have all succeeded (`dlsym` returned a non-`NULL` pointer and `dlerror`
reported nothing), and each table entry of `s'` holds the pointer looked up. -/
def AllLooked (env : Env) : List Event → List Sym → State → Prop
  | _, [], _ => True
  | hist, n :: ns, s' =>
    s'.entry n = env.dlsym hist n ∧ s'.entry n ≠ 0 ∧
    env.dlerror (hist ++ [Event.dlsym n]) = false ∧
    AllLooked env (hist ++ [Event.dlsym n, Event.dlerror]) ns s'

/-- `ASSIGN_DLSYM_OR_DIE` applied to each name of a list in turn. -/
def resolve_or_die (env : Env) : List Sym → State → Outcome Unit
  | [], s => Outcome.ret () s
  | n :: ns, s => (ASSIGN_DLSYM_OR_DIE env n s).bind fun _ s1 => resolve_or_die env ns s1

/-- A call of one of the seven overrides, with its arguments. -/
inductive Invocation where
  | inv_open (pathname : String) (flags va : Int)
  | inv_open64 (pathname : String) (flags va : Int)
  | inv_fsync (fd : Int)
  | inv_sync
  | inv_fdatasync (fd : Int)
  | inv_msync (addr length : Nat) (flags : Int)
  | inv_sync_file_range (fd offset nbytes : Int) (flags : Nat)

/-- Run one override call to its end (`sync` returns nothing: value 0). -/
def invoke (cfg : Config) (env : Env) : Invocation → State → Outcome Int
  | Invocation.inv_open p f va, s => eatmydata_open cfg env p f va s
  | Invocation.inv_open64 p f va, s => eatmydata_open64 cfg env p f va s
  | Invocation.inv_fsync fd, s => eatmydata_fsync cfg env fd s
  | Invocation.inv_sync, s => (eatmydata_sync cfg env s).bind fun _ s1 => Outcome.ret 0 s1
  | Invocation.inv_fdatasync fd, s => eatmydata_fdatasync cfg env fd s
  | Invocation.inv_msync a l f, s => eatmydata_msync cfg env a l f s
  | Invocation.inv_sync_file_range fd o n f, s => eatmydata_sync_file_range cfg env fd o n f s

/-- Whether the invocation is of `open` or `open64`. -/
def Invocation.is_open : Invocation → Bool
  | Invocation.inv_open _ _ _ => true
  | Invocation.inv_open64 _ _ _ => true
  | _ => false

/-- Whether the invocation is of `sync_file_range`, the override that calls
through the optional entry. -/
def Invocation.is_range : Invocation → Bool
  | Invocation.inv_sync_file_range _ _ _ _ => true
  | _ => false

/-- Whether the function ended by calling through a `NULL` pointer. -/
def Outcome.faulted {α : Type} : Outcome α → Bool
  | Outcome.fault _ => true
  | _ => false

/-- The state the process goes on with: after a return, and after the
cancellation of the calling thread; there is none after `_exit` or a call
through `NULL`. -/
def Outcome.alive {α : Type} : Outcome α → Option State
  | Outcome.ret _ s => some s
  | Outcome.cancelled s => some s
  | _ => none

/-- The table entry an override forwards through. -/
def Invocation.target : Invocation → Sym
  | Invocation.inv_open _ _ _ => Sym.sym_open
  | Invocation.inv_open64 _ _ _ => Sym.sym_open64
  | Invocation.inv_fsync _ => Sym.sym_fsync
  | Invocation.inv_sync => Sym.sym_sync
  | Invocation.inv_fdatasync _ => Sym.sym_fdatasync
  | Invocation.inv_msync _ _ _ => Sym.sym_msync
  | Invocation.inv_sync_file_range _ _ _ _ => Sym.sym_sync_file_range

/-- The number of the statement of `eatmydata_init` that looks the name up. -/
def Sym.stmt : Sym → Nat
  | Sym.sym_open => 1
  | Sym.sym_open64 => 2
  | Sym.sym_fsync => 3
  | Sym.sym_sync => 4
  | Sym.sym_fdatasync => 5
  | Sym.sym_msync => 6
  | Sym.sym_sync_file_range => 7

/-- Scan of a trace for lookups of `sync_file_range`: `hist` is the history
before the part still to scan, `v` the pointer the latest lookup so far
returned. -/
def range_scan (env : Env) : List Event → List Event → Nat → Nat
  | _, [], v => v
  | hist, e :: es, v =>
    range_scan env (hist ++ [e]) es
      (if e = Event.dlsym Sym.sym_sync_file_range then
        env.dlsym hist Sym.sym_sync_file_range
      else v)

/-- The pointer returned by the latest `dlsym(RTLD_NEXT, "sync_file_range")` of
a trace; 0 when the trace has none. -/
def latest_range_lookup (env : Env) (trace : List Event) : Nat :=
  range_scan env [] trace 0

/-- The entry of `sync_file_range` is what its latest lookup returned. -/
def Tracked (env : Env) (s : State) : Prop :=
  s.libc_sync_file_range = latest_range_lookup env s.trace

/-- The statements of the body of `eatmydata_init`, numbered from 0. -/
def eatmydata_init_stmt (cfg : Config) (env : Env) : Nat → State → Outcome Unit
  | 0, s => Outcome.ret () { s with initing := 1 }
  | 1, s => ASSIGN_DLSYM_OR_DIE env Sym.sym_open s
  | 2, s => ASSIGN_DLSYM_OR_DIE env Sym.sym_open64 s
  | 3, s => ASSIGN_DLSYM_OR_DIE env Sym.sym_fsync s
  | 4, s => ASSIGN_DLSYM_OR_DIE env Sym.sym_sync s
  | 5, s => ASSIGN_DLSYM_OR_DIE env Sym.sym_fdatasync s
  | 6, s => ASSIGN_DLSYM_OR_DIE env Sym.sym_msync s
  | 7, s =>
    if cfg.HAVE_SYNC_FILE_RANGE then ASSIGN_DLSYM_IF_EXIST env Sym.sym_sync_file_range s
    else Outcome.ret () s
  | _, s => Outcome.ret () { s with initing := 0 }

/-- The process: its variables, and how many statements of a running
`eatmydata_init` have been executed (`pc = 0`: no population is running). -/
structure Process where
  st : State
  pc : Nat

/-- What can happen next: the population (started by the loader or already
running) executes its next statement, or an override is called and runs to its
end. A call made while `pc ≠ 0` is a call in the middle of population. -/
inductive Action where
  | population
  | call (i : Invocation)

/-- One action; `none` when the process is gone (`_exit` or a call through
`NULL`). A call whose thread is cancelled at `pthread_testcancel` leaves the
process running. -/
def step (cfg : Config) (env : Env) : Action → Process → Option Process
  | Action.population, p =>
    match (eatmydata_init_stmt cfg env p.pc p.st).alive with
    | some s => some { st := s, pc := if 8 ≤ p.pc then 0 else p.pc + 1 }
    | none => none
  | Action.call i, p =>
    match (invoke cfg env i p.st).alive with
    | some s => some { st := s, pc := p.pc }
    | none => none

/-- A sequence of actions. -/
def run (cfg : Config) (env : Env) : List Action → Process → Option Process
  | [], p => some p
  | a :: rest, p =>
    match step cfg env a p with
    | some q => run cfg env rest q
    | none => none

/-- The initial process: all entries `NULL`, `initing = 0`, no population
running. -/
def Process.initial (errno : Int) : Process := { st := State.initial errno, pc := 0 }

/-- The invariant of every reachable process. The table is fully resolved;
or it is untouched and no population is running; or the first population is
running, with `initing` set, and has resolved exactly the entries of the
statements it has executed. -/
def Inv (p : Process) : Prop :=
  p.pc ≤ 8 ∧
  ((p.st.populated ∧ (p.pc = 0 → p.st.initing = 0)) ∨
   (p.st.libc_open = 0 ∧ p.pc = 0 ∧ p.st.initing = 0) ∨
   (p.st.initing ≠ 0 ∧ 1 ≤ p.pc ∧ (p.pc = 1 → p.st.libc_open = 0) ∧
    (2 ≤ p.pc → p.st.libc_open ≠ 0) ∧
    (3 ≤ p.pc → p.st.libc_open64 ≠ 0) ∧
    (4 ≤ p.pc → p.st.libc_fsync ≠ 0) ∧
    (5 ≤ p.pc → p.st.libc_sync ≠ 0) ∧
    (6 ≤ p.pc → p.st.libc_fdatasync ≠ 0) ∧
    (7 ≤ p.pc → p.st.libc_msync ≠ 0)))

/-- Whether the override call made after the first `k` statements of the first
population, in a process that did nothing else, calls through `NULL`. -/
def faults_after (cfg : Config) (env : Env) (k : Nat) (i : Invocation) : Option Bool :=
  (run cfg env (List.replicate k Action.population) (Process.initial 0)).map
    fun p => (invoke cfg env i p.st).faulted

/-- The static variables of the file alone (`errno` and the trace blanked). -/
def State.vars (s : State) : State := { s with errno := 0, trace := [] }

/-! ## Basic facts -/

theorem Looked.refl (s : State) : Looked s s := ⟨[], by simp, by simp⟩

theorem Looked.trans {a b c : State} (h1 : Looked a b) (h2 : Looked b c) : Looked a c := by
  obtain ⟨l1, e1, p1⟩ := h1
  obtain ⟨l2, e2, p2⟩ := h2
  refine ⟨l1 ++ l2, by rw [e2, e1, List.append_assoc], ?_⟩
  intro e he
  rcases List.mem_append.mp he with h | h
  · exact p1 e h
  · exact p2 e h

theorem bind_eq_ret {α β : Type} {o : Outcome α} {f : α → State → Outcome β} {v : β}
    {s' : State} (h : o.bind f = Outcome.ret v s') :
    ∃ v1 s1, o = Outcome.ret v1 s1 ∧ f v1 s1 = Outcome.ret v s' := by
  cases o with
  | ret v1 s1 => exact ⟨v1, s1, rfl, h⟩
  | exit c s1 => simp [Outcome.bind] at h
  | fault s1 => simp [Outcome.bind] at h
  | cancelled s1 => simp [Outcome.bind] at h

theorem bind_state_looked {α β : Type} {s : State} (o : Outcome α)
    (f : α → State → Outcome β) (h1 : Looked s o.state)
    (h2 : ∀ v s1, Looked s1 (f v s1).state) : Looked s (o.bind f).state := by
  cases o with
  | ret v1 s1 => exact Looked.trans h1 (h2 v1 s1)
  | exit c s1 => exact h1
  | fault s1 => exact h1
  | cancelled s1 => exact h1

theorem or_die_looked (env : Env) (name : Sym) (s : State) :
    Looked s (ASSIGN_DLSYM_OR_DIE env name s).state := by
  unfold ASSIGN_DLSYM_OR_DIE
  simp only []
  split_ifs
  · exact ⟨[Event.dlsym name], by cases name <;> simp [Outcome.state, dlsym_assign, State.assign],
      by simp [Event.is_lookup]⟩
  · exact ⟨[Event.dlsym name, Event.dlerror],
      by cases name <;> simp [Outcome.state, dlsym_assign, State.assign],
      by simp [Event.is_lookup]⟩
  · exact ⟨[Event.dlsym name, Event.dlerror],
      by cases name <;> simp [Outcome.state, dlsym_assign, State.assign],
      by simp [Event.is_lookup]⟩

theorem if_exist_looked (env : Env) (name : Sym) (s : State) :
    Looked s (ASSIGN_DLSYM_IF_EXIST env name s).state :=
  ⟨[Event.dlsym name, Event.dlerror],
    by cases name <;> simp [ASSIGN_DLSYM_IF_EXIST, Outcome.state, dlsym_assign, State.assign],
    by simp [Event.is_lookup]⟩

theorem init_looked (cfg : Config) (env : Env) (s : State) :
    Looked s (eatmydata_init cfg env s).state := by
  unfold eatmydata_init
  have h0 : Looked s { s with initing := 1 } := ⟨[], by simp, by simp⟩
  refine Looked.trans h0 ?_
  refine bind_state_looked _ _ (or_die_looked _ _ _) fun _ s1 => ?_
  refine bind_state_looked _ _ (or_die_looked _ _ _) fun _ s2 => ?_
  refine bind_state_looked _ _ (or_die_looked _ _ _) fun _ s3 => ?_
  refine bind_state_looked _ _ (or_die_looked _ _ _) fun _ s4 => ?_
  refine bind_state_looked _ _ (or_die_looked _ _ _) fun _ s5 => ?_
  refine bind_state_looked _ _ (or_die_looked _ _ _) fun _ s6 => ?_
  refine bind_state_looked _ _ ?_ fun _ s7 => ?_
  · split_ifs
    · exact if_exist_looked _ _ _
    · exact Looked.refl _
  · exact ⟨[], by simp [Outcome.state], by simp⟩

theorem or_die_ret {env : Env} {name : Sym} {s s' : State} {v : Unit}
    (h : ASSIGN_DLSYM_OR_DIE env name s = Outcome.ret v s') :
    s' = { dlsym_assign env name s with
           trace := (dlsym_assign env name s).trace ++ [Event.dlerror] } ∧
      (dlsym_assign env name s).entry name ≠ 0 ∧
      env.dlerror (dlsym_assign env name s).trace = false := by
  unfold ASSIGN_DLSYM_OR_DIE at h
  simp only [] at h
  split_ifs at h with h1 h2
  simp only [Outcome.ret.injEq] at h
  exact ⟨h.2.symm, h1, by simpa using h2⟩

theorem or_die_outcome (env : Env) (name : Sym) (s : State) :
    (∃ s', ASSIGN_DLSYM_OR_DIE env name s = Outcome.ret () s') ∨
    (∃ s', ASSIGN_DLSYM_OR_DIE env name s = Outcome.exit 1 s') := by
  unfold ASSIGN_DLSYM_OR_DIE
  simp only []
  split_ifs
  · exact Or.inr ⟨_, rfl⟩
  · exact Or.inr ⟨_, rfl⟩
  · exact Or.inl ⟨_, rfl⟩

theorem or_die_ret_entries {env : Env} {name : Sym} {s s' : State} {v : Unit}
    (h : ASSIGN_DLSYM_OR_DIE env name s = Outcome.ret v s') :
    s'.entry name ≠ 0 ∧ (∀ m, m ≠ name → s'.entry m = s.entry m) ∧ s'.initing = s.initing := by
  obtain ⟨e, n, -⟩ := or_die_ret h
  subst e
  refine ⟨?_, ?_, ?_⟩
  · revert n; cases name <;> simp [dlsym_assign, State.assign, State.entry]
  · intro m hm
    cases name <;> cases m <;> simp_all [dlsym_assign, State.assign, State.entry]
  · cases name <;> simp [dlsym_assign, State.assign]

theorem if_exist_entries (env : Env) (s : State) :
    ∃ s', ASSIGN_DLSYM_IF_EXIST env Sym.sym_sync_file_range s = Outcome.ret () s' ∧
      (∀ m, m ≠ Sym.sym_sync_file_range → s'.entry m = s.entry m) ∧
      s'.initing = s.initing := by
  refine ⟨_, rfl, ?_, ?_⟩
  · intro m hm
    cases m <;> simp_all [dlsym_assign, State.assign, State.entry]
  · simp [dlsym_assign, State.assign]

theorem populated_iff_entries (s : State) :
    s.populated ↔ s.entry Sym.sym_open ≠ 0 ∧ s.entry Sym.sym_open64 ≠ 0 ∧
      s.entry Sym.sym_fsync ≠ 0 ∧ s.entry Sym.sym_sync ≠ 0 ∧
      s.entry Sym.sym_fdatasync ≠ 0 ∧ s.entry Sym.sym_msync ≠ 0 := Iff.rfl

/-- When `eatmydata_init` returns, the six mandatory entries are resolved and
`initing` is 0. -/
theorem init_ret {cfg : Config} {env : Env} {s s' : State} {v : Unit}
    (h : eatmydata_init cfg env s = Outcome.ret v s') : s'.populated ∧ s'.initing = 0 := by
  unfold eatmydata_init at h
  obtain ⟨_, s1, h1, h⟩ := bind_eq_ret h
  obtain ⟨_, s2, h2, h⟩ := bind_eq_ret h
  obtain ⟨_, s3, h3, h⟩ := bind_eq_ret h
  obtain ⟨_, s4, h4, h⟩ := bind_eq_ret h
  obtain ⟨_, s5, h5, h⟩ := bind_eq_ret h
  obtain ⟨_, s6, h6, h⟩ := bind_eq_ret h
  obtain ⟨_, s7, h7, h⟩ := bind_eq_ret h
  obtain ⟨n1, -, -⟩ := or_die_ret_entries h1
  obtain ⟨n2, f2, -⟩ := or_die_ret_entries h2
  obtain ⟨n3, f3, -⟩ := or_die_ret_entries h3
  obtain ⟨n4, f4, -⟩ := or_die_ret_entries h4
  obtain ⟨n5, f5, -⟩ := or_die_ret_entries h5
  obtain ⟨n6, f6, -⟩ := or_die_ret_entries h6
  have f7 : ∀ m, m ≠ Sym.sym_sync_file_range → s7.entry m = s6.entry m := by
    split_ifs at h7
    · obtain ⟨t, ht, ft, -⟩ := if_exist_entries env s6
      rw [ht] at h7
      simp only [Outcome.ret.injEq] at h7
      rw [← h7.2]; exact ft
    · simp only [Outcome.ret.injEq] at h7
      rw [← h7.2]; intros; rfl
  simp only [Outcome.ret.injEq] at h
  obtain ⟨-, h⟩ := h
  subst h
  refine ⟨?_, rfl⟩
  rw [populated_iff_entries]
  have g : ∀ m, ({ s7 with initing := 0 } : State).entry m = s7.entry m := by
    intro m; cases m <;> rfl
  simp only [g]
  refine ⟨?_, ?_, ?_, ?_, ?_, ?_⟩
  · rw [f7 _ (by decide), f6 _ (by decide), f5 _ (by decide), f4 _ (by decide),
      f3 _ (by decide), f2 _ (by decide)]; exact n1
  · rw [f7 _ (by decide), f6 _ (by decide), f5 _ (by decide), f4 _ (by decide),
      f3 _ (by decide)]; exact n2
  · rw [f7 _ (by decide), f6 _ (by decide), f5 _ (by decide), f4 _ (by decide)]; exact n3
  · rw [f7 _ (by decide), f6 _ (by decide), f5 _ (by decide)]; exact n4
  · rw [f7 _ (by decide), f6 _ (by decide)]; exact n5
  · rw [f7 _ (by decide)]; exact n6

/-- The population routine never calls through a pointer, and the only exit
status it uses is 1. -/
theorem init_outcome (cfg : Config) (env : Env) (s : State) :
    (∃ s', eatmydata_init cfg env s = Outcome.ret () s') ∨
    (∃ s', eatmydata_init cfg env s = Outcome.exit 1 s') := by
  unfold eatmydata_init
  rcases or_die_outcome env Sym.sym_open { s with initing := 1 } with ⟨s1, h1⟩ | ⟨s1, h1⟩
  swap
  · exact Or.inr ⟨s1, by rw [h1]; rfl⟩
  rw [h1]; simp only [Outcome.bind]
  rcases or_die_outcome env Sym.sym_open64 s1 with ⟨s2, h2⟩ | ⟨s2, h2⟩
  swap
  · exact Or.inr ⟨s2, by rw [h2]⟩
  rw [h2]; simp only []
  rcases or_die_outcome env Sym.sym_fsync s2 with ⟨s3, h3⟩ | ⟨s3, h3⟩
  swap
  · exact Or.inr ⟨s3, by rw [h3]⟩
  rw [h3]; simp only []
  rcases or_die_outcome env Sym.sym_sync s3 with ⟨s4, h4⟩ | ⟨s4, h4⟩
  swap
  · exact Or.inr ⟨s4, by rw [h4]⟩
  rw [h4]; simp only []
  rcases or_die_outcome env Sym.sym_fdatasync s4 with ⟨s5, h5⟩ | ⟨s5, h5⟩
  swap
  · exact Or.inr ⟨s5, by rw [h5]⟩
  rw [h5]; simp only []
  rcases or_die_outcome env Sym.sym_msync s5 with ⟨s6, h6⟩ | ⟨s6, h6⟩
  swap
  · exact Or.inr ⟨s6, by rw [h6]⟩
  rw [h6]; simp only []
  left
  split_ifs
  · exact ⟨_, rfl⟩
  · exact ⟨_, rfl⟩

theorem is_hungry_populated (cfg : Config) (env : Env) (s : State) (hp : s.libc_open ≠ 0) :
    eatmydata_is_hungry cfg env s =
      match cfg.CHECK_FILE with
      | some path =>
        Outcome.ret (if env.stat s.trace path = 0 then 1 else 0)
          { s with trace := s.trace ++ [Event.stat path] }
      | none => Outcome.ret 1 s := by
  simp [eatmydata_is_hungry, hp, Outcome.bind]

theorem is_hungry_unpopulated (cfg : Config) (env : Env) (s : State) (hp : s.libc_open = 0) :
    eatmydata_is_hungry cfg env s =
      (eatmydata_init cfg env s).bind fun _ s1 =>
        match cfg.CHECK_FILE with
        | some path =>
          Outcome.ret (if env.stat s1.trace path = 0 then (1 : Int) else 0)
            { s1 with trace := s1.trace ++ [Event.stat path] }
        | none => Outcome.ret (1 : Int) s1 := by
  simp only [eatmydata_is_hungry, hp, if_true]

/-- What a return of `eatmydata_is_hungry` tells: the population was skipped
or has returned (state `s0`), and the policy was evaluated in `s0`. -/
theorem is_hungry_ret {cfg : Config} {env : Env} {s s1 : State} {h : Int}
    (hh : eatmydata_is_hungry cfg env s = Outcome.ret h s1) :
    ∃ s0, ((s.libc_open ≠ 0 ∧ s0 = s) ∨
           (s.libc_open = 0 ∧ eatmydata_init cfg env s = Outcome.ret () s0)) ∧
      ((cfg.CHECK_FILE = none ∧ h = 1 ∧ s1 = s0) ∨
       (∃ path, cfg.CHECK_FILE = some path ∧
          h = (if env.stat s0.trace path = 0 then 1 else 0) ∧
          s1 = { s0 with trace := s0.trace ++ [Event.stat path] })) := by
  by_cases hp : s.libc_open = 0
  · rw [is_hungry_unpopulated cfg env s hp] at hh
    obtain ⟨_, s0, h0, hh⟩ := bind_eq_ret hh
    refine ⟨s0, Or.inr ⟨hp, h0⟩, ?_⟩
    cases hc : cfg.CHECK_FILE with
    | none =>
      rw [hc] at hh
      simp only [Outcome.ret.injEq] at hh
      exact Or.inl ⟨rfl, hh.1.symm, hh.2.symm⟩
    | some path =>
      rw [hc] at hh
      simp only [Outcome.ret.injEq] at hh
      exact Or.inr ⟨path, rfl, hh.1.symm, hh.2.symm⟩
  · rw [is_hungry_populated cfg env s hp] at hh
    refine ⟨s, Or.inl ⟨hp, rfl⟩, ?_⟩
    cases hc : cfg.CHECK_FILE with
    | none =>
      rw [hc] at hh
      simp only [Outcome.ret.injEq] at hh
      exact Or.inl ⟨rfl, hh.1.symm, hh.2.symm⟩
    | some path =>
      rw [hc] at hh
      simp only [Outcome.ret.injEq] at hh
      exact Or.inr ⟨path, rfl, hh.1.symm, hh.2.symm⟩

/-- After `eatmydata_is_hungry` has returned, either nothing but the trace has
changed and `libc_open` was resolved before, or the population has just run:
the six mandatory entries are resolved and `initing` is 0. -/
theorem is_hungry_ret_table {cfg : Config} {env : Env} {s s1 : State} {h : Int}
    (hh : eatmydata_is_hungry cfg env s = Outcome.ret h s1) :
    (s.libc_open ≠ 0 ∧ s1 = { s with trace := s1.trace }) ∨
    (s.libc_open = 0 ∧ s1.populated ∧ s1.initing = 0) := by
  obtain ⟨s0, h0, h1⟩ := is_hungry_ret hh
  rcases h0 with ⟨hp, rfl⟩ | ⟨hp, hi⟩
  · left
    refine ⟨hp, ?_⟩
    rcases h1 with ⟨-, -, rfl⟩ | ⟨path, -, -, rfl⟩ <;> rfl
  · right
    refine ⟨hp, ?_⟩
    have := init_ret hi
    rcases h1 with ⟨-, -, rfl⟩ | ⟨path, -, -, rfl⟩
    · exact this
    · exact this

theorem is_hungry_ret_open {cfg : Config} {env : Env} {s s1 : State} {h : Int}
    (hh : eatmydata_is_hungry cfg env s = Outcome.ret h s1) : s1.libc_open ≠ 0 := by
  rcases is_hungry_ret_table hh with ⟨hp, e⟩ | ⟨-, hp, -⟩
  · rw [e]; exact hp
  · exact hp.1

theorem REAL_resolved (env : Env) (ptr : Nat) (c : Call) (s : State) (h : ptr ≠ 0) :
    REAL env ptr c s = forward_verbatim env ptr c s := by
  simp [REAL, forward_verbatim, h]

/-- A value of type `mode_t` passed in the variadic slot is read back as
itself. -/
theorem va_arg_mode_id (cfg : Config) (mode : Int)
    (hm : 0 ≤ mode ∧ mode < 2 ^ (8 * cfg.SIZEOF_MODE_T)) : va_arg_mode cfg mode = mode := by
  unfold va_arg_mode
  split_ifs
  · exact Int.emod_eq_of_lt hm.1 hm.2
  · rfl

theorem ldiff_eq_xor_land (n m : Nat) : Nat.ldiff n m = n ^^^ (n &&& m) := by
  apply Nat.eq_of_testBit_eq
  intro i
  rw [Nat.testBit_ldiff, Nat.testBit_xor, Nat.testBit_and]
  cases n.testBit i <;> cases m.testBit i <;> rfl

/-- On non-negative flags and masks `flags & ~(O_SYNC|O_DSYNC)` is computed by
natural-number operations. -/
theorem strip_sync_nat (cfg : Config) (n a b : Nat) (ha : cfg.O_SYNC = (a : Int))
    (hb : cfg.O_DSYNC = (b : Int)) :
    strip_sync cfg (n : Int) = ((n ^^^ (n &&& (a ||| b)) : Nat) : Int) := by
  unfold strip_sync
  rw [ha, hb]
  show ((Nat.ldiff n (a ||| b) : Nat) : Int) = _
  rw [ldiff_eq_xor_land]

theorem strip_sync_testBit (cfg : Config) (flags : Int) (i : Nat) :
    (strip_sync cfg flags).testBit i =
      (flags.testBit i && !(cfg.O_SYNC.testBit i || cfg.O_DSYNC.testBit i)) := by
  unfold strip_sync
  rw [Int.testBit_land, Int.testBit_lnot, Int.testBit_lor]

/-! ## C3: `open` / `open64` called while `initing` is set -/

/-- C3: for every pathname, flags and variadic slot, `open` and `open64` called
while `initing` is non-zero return -1 with `errno = EFAULT`; the trace is
unchanged (no real call, no `stat` probe of the activation policy, no `dlsym`
lookup), and so are every table entry and `initing`. -/
theorem open_refuses_while_initing (cfg : Config) (env : Env) (pathname : String)
    (flags va : Int) (s : State) (h : s.initing ≠ 0) :
    ∀ o ∈ [eatmydata_open cfg env pathname flags va s,
           eatmydata_open64 cfg env pathname flags va s],
      o = Outcome.ret (-1) { s with errno := cfg.EFAULT } ∧
      o.state.errno = cfg.EFAULT ∧ o.state.trace = s.trace ∧
      o.state.initing = s.initing ∧ ∀ name, o.state.entry name = s.entry name := by
  intro o ho
  simp only [List.mem_cons, List.mem_singleton, List.not_mem_nil, or_false] at ho
  have h1 : eatmydata_open cfg env pathname flags va s =
      Outcome.ret (-1) { s with errno := cfg.EFAULT } := by
    simp [eatmydata_open, h]
  have h2 : eatmydata_open64 cfg env pathname flags va s =
      Outcome.ret (-1) { s with errno := cfg.EFAULT } := by
    simp [eatmydata_open64, h]
  have ho' : o = Outcome.ret (-1) { s with errno := cfg.EFAULT } := by
    rcases ho with rfl | rfl
    · exact h1
    · exact h2
  subst ho'
  refine ⟨rfl, rfl, rfl, rfl, ?_⟩
  intro name
  cases name <;> rfl

/-- Witness of C3: `open` in the middle of population. -/
theorem open_refuses_while_initing_witness :
    eatmydata_open cfg_unconditional env_resolving "/etc/passwd" 0 0
        { State.initial 0 with initing := 1 } =
      Outcome.ret (-1) { State.initial 14 with initing := 1 } :=
  (open_refuses_while_initing cfg_unconditional env_resolving "/etc/passwd" 0 0
    { State.initial 0 with initing := 1 } (by decide) _ (by simp)).1

/-! ## C1: the suppressed flush overrides -/

/-- C1 fails as stated in two ways. On the first call of a process, with
`libc_open` still `NULL`, `fsync` runs the population first, so its external
actions are fourteen lookup calls and then the cancellation check; and when
the lookup of `open` fails it does not return at all: the process exits with
status 1. And with a cancellation request pending, `fsync` does not return
either: the thread ends at `pthread_testcancel`, with `errno` not cleared. -/
theorem flush_override_first_call :
    eatmydata_fsync cfg_unconditional env_resolving 3 (State.initial 7) =
      Outcome.ret 0 { state_populated 0 with trace :=
        [Event.dlsym Sym.sym_open, Event.dlerror, Event.dlsym Sym.sym_open64, Event.dlerror,
         Event.dlsym Sym.sym_fsync, Event.dlerror, Event.dlsym Sym.sym_sync, Event.dlerror,
         Event.dlsym Sym.sym_fdatasync, Event.dlerror, Event.dlsym Sym.sym_msync,
         Event.dlerror, Event.dlsym Sym.sym_sync_file_range, Event.dlerror,
         Event.pthread_testcancel 7] } ∧
    eatmydata_fsync cfg_unconditional env_open_missing 3 (State.initial 7) =
      Outcome.exit 1
        { State.initial 7 with initing := 1, trace := [Event.dlsym Sym.sym_open] } ∧
    eatmydata_fsync cfg_unconditional env_cancel_pending 3 (state_populated 7) =
      Outcome.cancelled
        { state_populated 7 with trace := [Event.pthread_testcancel 7] } := by
  refine ⟨?_, ?_, ?_⟩
  · rfl
  · decide
  · rfl

theorem suppressed_cases (env : Env) (s : State) :
    (env.pthread_testcancel s.trace = false →
      suppressed env s = Outcome.ret 0
        { s with trace := s.trace ++ [Event.pthread_testcancel s.errno], errno := 0 }) ∧
    (env.pthread_testcancel s.trace = true →
      suppressed env s = Outcome.cancelled
        { s with trace := s.trace ++ [Event.pthread_testcancel s.errno] }) := by
  constructor <;> intro h <;> simp [suppressed, h]

theorem flush_overrides_after_hungry (cfg : Config) (env : Env) (s s1 : State)
    (fd : Int) (addr length : Nat) (mflags : Int) (offset nbytes : Int) (rflags : Nat)
    (hh : eatmydata_is_hungry cfg env s = Outcome.ret 1 s1) :
    ∀ o ∈ flush_overrides cfg env fd addr length mflags offset nbytes rflags s,
      o = suppressed env s1 := by
  intro o ho
  simp only [flush_overrides, List.mem_cons, List.mem_singleton, List.not_mem_nil,
    or_false] at ho
  rcases ho with rfl | rfl | rfl | rfl <;>
    simp [eatmydata_fsync, eatmydata_fdatasync, eatmydata_msync, eatmydata_sync_file_range,
      hh, Outcome.bind]

/-- C1, amended: in the build without `CHECK_FILE`, for every argument tuple
and every prior `errno`:
* when `libc_open` is already resolved, the only external action of `fsync`,
  `fdatasync`, `msync` and `sync_file_range` is one `pthread_testcancel`, made
  while `errno` still has its prior value, and no real primitive is invoked;
  when no cancellation request is acted upon there, the override returns 0
  with `errno = 0`; when one is, the thread ends at the check and `errno` is
  not cleared;
* when `libc_open` is `NULL` the override first runs `eatmydata_init`: either
  the population exits the process with status 1 and so does the override, or
  it returns, having performed lookup calls only, and the override then ends
  as above. -/
theorem flush_overrides_suppressed (cfg : Config) (env : Env) (s : State)
    (hc : cfg.CHECK_FILE = none) (fd : Int) (addr length : Nat) (mflags : Int)
    (offset nbytes : Int) (rflags : Nat) :
    (s.libc_open ≠ 0 →
      ∀ o ∈ flush_overrides cfg env fd addr length mflags offset nbytes rflags s,
        (env.pthread_testcancel s.trace = false →
          o = Outcome.ret 0
            { s with trace := s.trace ++ [Event.pthread_testcancel s.errno],
                     errno := 0 }) ∧
        (env.pthread_testcancel s.trace = true →
          o = Outcome.cancelled
            { s with trace := s.trace ++ [Event.pthread_testcancel s.errno] })) ∧
    (s.libc_open = 0 →
      (∃ s1, eatmydata_init cfg env s = Outcome.exit 1 s1 ∧
        ∀ o ∈ flush_overrides cfg env fd addr length mflags offset nbytes rflags s,
          o = Outcome.exit 1 s1) ∨
      (∃ s1, eatmydata_init cfg env s = Outcome.ret () s1 ∧ Looked s s1 ∧
        ∀ o ∈ flush_overrides cfg env fd addr length mflags offset nbytes rflags s,
          (env.pthread_testcancel s1.trace = false →
            o = Outcome.ret 0
              { s1 with trace := s1.trace ++ [Event.pthread_testcancel s1.errno],
                        errno := 0 }) ∧
          (env.pthread_testcancel s1.trace = true →
            o = Outcome.cancelled
              { s1 with trace := s1.trace ++ [Event.pthread_testcancel s1.errno] }))) := by
  constructor
  · intro hp o ho
    have hh := is_hungry_populated cfg env s hp
    rw [hc] at hh
    rw [flush_overrides_after_hungry cfg env s s fd addr length mflags offset nbytes rflags
      hh o ho]
    exact suppressed_cases env s
  · intro hp
    have hh := is_hungry_unpopulated cfg env s hp
    rw [hc] at hh
    rcases init_outcome cfg env s with ⟨s1, h1⟩ | ⟨s1, h1⟩
    · right
      refine ⟨s1, h1, ?_, ?_⟩
      · have := init_looked cfg env s
        rw [h1] at this
        exact this
      · intro o ho
        rw [h1] at hh
        rw [flush_overrides_after_hungry cfg env s s1 fd addr length mflags offset nbytes
          rflags hh o ho]
        exact suppressed_cases env s1
    · left
      refine ⟨s1, h1, ?_⟩
      intro o ho
      rw [h1] at hh
      simp only [flush_overrides, List.mem_cons, List.mem_singleton, List.not_mem_nil,
        or_false] at ho
      rcases ho with rfl | rfl | rfl | rfl <;>
        simp [eatmydata_fsync, eatmydata_fdatasync, eatmydata_msync,
          eatmydata_sync_file_range, hh, Outcome.bind]

/-- Witness of the amended C1: `msync` on a populated table with `errno = 7`
and no cancellation request. -/
theorem flush_overrides_suppressed_witness :
    eatmydata_msync cfg_unconditional env_resolving 4096 8192 4 (state_populated 7) =
      Outcome.ret 0 { state_populated 0 with trace := [Event.pthread_testcancel 7] } :=
  ((flush_overrides_suppressed cfg_unconditional env_resolving (state_populated 7) rfl
    3 4096 8192 4 0 0 0).1 (by decide) _ (by simp [flush_overrides])).1 rfl

/-! ## C5: the activation policy -/

/-- C5 fails as stated in its last sentence: in the build without `CHECK_FILE`,
called with `libc_open` still `NULL` in a process where the lookup of `open`
fails, `eatmydata_is_hungry` does not return true; the process exits with
status 1. -/
theorem is_hungry_unresolved_exit :
    eatmydata_is_hungry cfg_unconditional env_open_missing (State.initial 7) =
      Outcome.exit 1
        { State.initial 7 with initing := 1, trace := [Event.dlsym Sym.sym_open] } := by
  decide

/-- C5, amended. With `CHECK_FILE` defined and `libc_open` resolved,
`eatmydata_is_hungry` probes the marker once, returns 1 exactly when `stat`
returned 0 and 0 for every other result, whatever `errno` the probe left, and
returns with `errno` (and everything but the trace) as it found it. Without
`CHECK_FILE` it returns 1 in every state in which it returns: at once when
`libc_open` is resolved, after a population that returns otherwise; when the
population exits the process (status 1), so does it. -/
theorem is_hungry_policy (cfg : Config) (env : Env) (s : State) :
    (∀ path, cfg.CHECK_FILE = some path → s.libc_open ≠ 0 →
      eatmydata_is_hungry cfg env s =
        Outcome.ret (if env.stat s.trace path = 0 then 1 else 0)
          { s with trace := s.trace ++ [Event.stat path] } ∧
      ((∃ s1, eatmydata_is_hungry cfg env s = Outcome.ret 1 s1) ↔
        env.stat s.trace path = 0) ∧
      (env.stat s.trace path ≠ 0 →
        ∃ s1, eatmydata_is_hungry cfg env s = Outcome.ret 0 s1) ∧
      (eatmydata_is_hungry cfg env s).state.errno = s.errno) ∧
    (cfg.CHECK_FILE = none →
      (s.libc_open ≠ 0 → eatmydata_is_hungry cfg env s = Outcome.ret 1 s) ∧
      (s.libc_open = 0 →
        (∃ s1, eatmydata_init cfg env s = Outcome.ret () s1 ∧
          eatmydata_is_hungry cfg env s = Outcome.ret 1 s1) ∨
        (∃ s1, eatmydata_init cfg env s = Outcome.exit 1 s1 ∧
          eatmydata_is_hungry cfg env s = Outcome.exit 1 s1))) := by
  constructor
  · intro path hc hp
    have hh := is_hungry_populated cfg env s hp
    rw [hc] at hh
    simp only [] at hh
    refine ⟨hh, ?_, ?_, ?_⟩
    · rw [hh]
      by_cases h0 : env.stat s.trace path = 0
      · simp [h0]
      · simp [h0]
    · intro h0
      rw [hh]
      exact ⟨{ s with trace := s.trace ++ [Event.stat path] }, by simp [h0]⟩
    · rw [hh]; rfl
  · intro hc
    constructor
    · intro hp
      have hh := is_hungry_populated cfg env s hp
      rw [hc] at hh
      exact hh
    · intro hp
      have hh := is_hungry_unpopulated cfg env s hp
      rw [hc] at hh
      rcases init_outcome cfg env s with ⟨s1, h1⟩ | ⟨s1, h1⟩
      · exact Or.inl ⟨s1, h1, by rw [hh, h1]; rfl⟩
      · exact Or.inr ⟨s1, h1, by rw [hh, h1]; rfl⟩

/-- Witness of the amended C5: the marker is absent, `stat` leaves `errno = 2`,
and the caller still sees its own `errno = 7`. -/
theorem is_hungry_policy_witness :
    eatmydata_is_hungry cfg_marker env_resolving (state_populated 7) =
      Outcome.ret 0 { state_populated 7 with trace := [Event.stat "/tmp/eatmydata"] } :=
  ((is_hungry_policy cfg_marker env_resolving (state_populated 7)).1 "/tmp/eatmydata" rfl
    (by decide)).1

/-! ## C7: the suppressed `sync` -/

/-- C7 fails as stated: the suppressed `sync` does not clear `errno`. Called
with `errno = 7` it returns with `errno = 7`. -/
theorem sync_keeps_errno :
    eatmydata_sync cfg_unconditional env_resolving (state_populated 7) =
      Outcome.ret () (state_populated 7) ∧
    (state_populated 7).errno ≠ 0 := by
  constructor
  · rfl
  · decide

/-- C7, amended: when suppression is active (`eatmydata_is_hungry` returned
non-zero, leaving state `s1`), `sync` returns in that very state: it performs
no external action of its own, so the real `sync` is not invoked, and it does
not write `errno`. With `libc_open` resolved, `errno` on return equals the
`errno` before the call, and no real primitive appears in the trace. -/
theorem sync_suppressed (cfg : Config) (env : Env) (s s1 : State) (h : Int)
    (hh : eatmydata_is_hungry cfg env s = Outcome.ret h s1) (ha : h ≠ 0) :
    eatmydata_sync cfg env s = Outcome.ret () s1 ∧
    (s.libc_open ≠ 0 →
      s1.errno = s.errno ∧
      (s1.trace = s.trace ∨ ∃ path, s1.trace = s.trace ++ [Event.stat path])) := by
  constructor
  · simp [eatmydata_sync, hh, Outcome.bind, ha]
  · intro hp
    obtain ⟨s0, h0, h1⟩ := is_hungry_ret hh
    rcases h0 with ⟨-, rfl⟩ | ⟨hp', -⟩
    · rcases h1 with ⟨-, -, rfl⟩ | ⟨path, -, -, rfl⟩
      · exact ⟨rfl, Or.inl rfl⟩
      · exact ⟨rfl, Or.inr ⟨path, rfl⟩⟩
    · exact absurd hp' hp

/-- Witness of the amended C7: the marker-gated build with the marker present. -/
theorem sync_suppressed_witness :
    eatmydata_sync cfg_marker env_marker_present (state_populated 7) =
      Outcome.ret () { state_populated 7 with trace := [Event.stat "/tmp/eatmydata"] } :=
  (sync_suppressed cfg_marker env_marker_present (state_populated 7)
    { state_populated 7 with trace := [Event.stat "/tmp/eatmydata"] } 1 rfl (by decide)).1

/-! ## C2: `open` / `open64` under suppression -/

/-- C2: for every pathname, flags and mode (a `mode_t` value), when `initing`
is 0 and suppression is active (`eatmydata_is_hungry` returns non-zero, leaving
state `s1`), `open` and `open64` make exactly one call, to the real function
their table entry points to, with the pathname and the mode unchanged and with
`flags & ~(O_SYNC|O_DSYNC)`; the value returned and `errno` are those of that
call. In the flags passed on, every bit of `O_SYNC` and of `O_DSYNC` is clear
and every other bit is the bit of the input flags. -/
theorem open_strips_sync_flags (cfg : Config) (env : Env) (pathname : String)
    (flags mode : Int) (s s1 : State) (h : Int) (hi : s.initing = 0)
    (hh : eatmydata_is_hungry cfg env s = Outcome.ret h s1) (ha : h ≠ 0)
    (hm : 0 ≤ mode ∧ mode < 2 ^ (8 * cfg.SIZEOF_MODE_T)) :
    eatmydata_open cfg env pathname flags mode s =
      forward_verbatim env s1.libc_open
        (Call.call_open pathname (strip_sync cfg flags) mode) s1 ∧
    (s1.libc_open64 ≠ 0 →
      eatmydata_open64 cfg env pathname flags mode s =
        forward_verbatim env s1.libc_open64
          (Call.call_open64 pathname (strip_sync cfg flags) mode) s1) ∧
    (∀ i, (strip_sync cfg flags).testBit i =
      (flags.testBit i && !(cfg.O_SYNC.testBit i || cfg.O_DSYNC.testBit i))) := by
  refine ⟨?_, ?_, strip_sync_testBit cfg flags⟩
  · simp only [eatmydata_open, hi, ne_eq, not_true_eq_false, if_false, hh, Outcome.bind, ha,
      not_false_eq_true, if_true, va_arg_mode_id cfg mode hm]
    exact REAL_resolved _ _ _ _ (is_hungry_ret_open hh)
  · intro h64
    simp only [eatmydata_open64, hi, ne_eq, not_true_eq_false, if_false, hh, Outcome.bind, ha,
      not_false_eq_true, if_true, va_arg_mode_id cfg mode hm]
    exact REAL_resolved _ _ _ _ h64

/-- Witness of C2: `open("/var/db", O_RDWR|O_SYNC, 0644)` in the shipped build;
the real `open` receives `O_RDWR` only. -/
theorem open_strips_sync_flags_witness :
    eatmydata_open cfg_unconditional env_resolving "/var/db" 0x101002 0x1a4
        (state_populated 7) =
      Outcome.ret (-1)
        { state_populated 5 with
          trace := [Event.real 101 (Call.call_open "/var/db" 2 0x1a4)] } :=
  ((open_strips_sync_flags cfg_unconditional env_resolving "/var/db" 0x101002 0x1a4
    (state_populated 7) (state_populated 7) 1 rfl rfl (by decide) (by decide)).1).trans
    (by
      rw [show strip_sync cfg_unconditional 0x101002 = 2 from
        (strip_sync_nat cfg_unconditional 0x101002 0x101000 0x1000 rfl rfl).trans (by decide)]
      rfl)

/-! ## C4: every override when the policy reports "inactive" -/

/-- C4: when `initing` is 0 and the activation policy reports that suppression
is inactive (`eatmydata_is_hungry` returns 0, leaving state `s1`), every
override whose table entry is resolved makes exactly one call, to the real
function the entry points to, with exactly the caller's arguments (for `open`
and `open64`: pathname, the flags as given, and the mode), and returns the
value and the `errno` of that call. With `libc_open` resolved, `s1` is the
caller's state after one `stat` probe, with the caller's `errno`. -/
theorem forwards_when_inactive (cfg : Config) (env : Env) (s s1 : State) (hi : s.initing = 0)
    (hh : eatmydata_is_hungry cfg env s = Outcome.ret 0 s1)
    (fd : Int) (addr length : Nat) (mflags : Int) (offset nbytes : Int) (rflags : Nat)
    (pathname : String) (flags mode : Int)
    (hm : 0 ≤ mode ∧ mode < 2 ^ (8 * cfg.SIZEOF_MODE_T)) :
    (s1.libc_fsync ≠ 0 →
      eatmydata_fsync cfg env fd s =
        forward_verbatim env s1.libc_fsync (Call.call_fsync fd) s1) ∧
    (s1.libc_fdatasync ≠ 0 →
      eatmydata_fdatasync cfg env fd s =
        forward_verbatim env s1.libc_fdatasync (Call.call_fdatasync fd) s1) ∧
    (s1.libc_msync ≠ 0 →
      eatmydata_msync cfg env addr length mflags s =
        forward_verbatim env s1.libc_msync (Call.call_msync addr length mflags) s1) ∧
    (s1.libc_sync_file_range ≠ 0 →
      eatmydata_sync_file_range cfg env fd offset nbytes rflags s =
        forward_verbatim env s1.libc_sync_file_range
          (Call.call_sync_file_range fd offset nbytes rflags) s1) ∧
    (s1.libc_sync ≠ 0 →
      eatmydata_sync cfg env s =
        Outcome.ret () (forward_verbatim env s1.libc_sync Call.call_sync s1).state) ∧
    eatmydata_open cfg env pathname flags mode s =
      forward_verbatim env s1.libc_open (Call.call_open pathname flags mode) s1 ∧
    (s1.libc_open64 ≠ 0 →
      eatmydata_open64 cfg env pathname flags mode s =
        forward_verbatim env s1.libc_open64 (Call.call_open64 pathname flags mode) s1) ∧
    (s.libc_open ≠ 0 →
      ∃ path, cfg.CHECK_FILE = some path ∧
        s1 = { s with trace := s.trace ++ [Event.stat path] }) := by
  refine ⟨?_, ?_, ?_, ?_, ?_, ?_, ?_, ?_⟩
  · intro hr
    simp only [eatmydata_fsync, hh, Outcome.bind, ne_eq, not_true_eq_false, if_false]
    exact REAL_resolved _ _ _ _ hr
  · intro hr
    simp only [eatmydata_fdatasync, hh, Outcome.bind, ne_eq, not_true_eq_false, if_false]
    exact REAL_resolved _ _ _ _ hr
  · intro hr
    simp only [eatmydata_msync, hh, Outcome.bind, ne_eq, not_true_eq_false, if_false]
    exact REAL_resolved _ _ _ _ hr
  · intro hr
    simp only [eatmydata_sync_file_range, hh, Outcome.bind, ne_eq, not_true_eq_false, if_false]
    exact REAL_resolved _ _ _ _ hr
  · intro hr
    simp only [eatmydata_sync, hh, Outcome.bind, ne_eq, not_true_eq_false, if_false,
      REAL_resolved _ _ _ _ hr]
    rfl
  · simp only [eatmydata_open, hi, ne_eq, not_true_eq_false, if_false, hh, Outcome.bind,
      va_arg_mode_id cfg mode hm]
    exact REAL_resolved _ _ _ _ (is_hungry_ret_open hh)
  · intro hr
    simp only [eatmydata_open64, hi, ne_eq, not_true_eq_false, if_false, hh, Outcome.bind,
      va_arg_mode_id cfg mode hm]
    exact REAL_resolved _ _ _ _ hr
  · intro hp
    obtain ⟨s0, h0, h1⟩ := is_hungry_ret hh
    rcases h0 with ⟨-, rfl⟩ | ⟨hp', -⟩
    · rcases h1 with ⟨-, h1, -⟩ | ⟨path, hc, -, rfl⟩
      · exact absurd h1 (by decide)
      · exact ⟨path, hc, rfl⟩
    · exact absurd hp' hp

/-- Witness of C4: `fsync(3)` in the marker-gated build with the marker absent;
the real `fsync` fails with -1 and `errno = 5`, and so does the override. -/
theorem forwards_when_inactive_witness :
    eatmydata_fsync cfg_marker env_resolving 3 (state_populated 7) =
      Outcome.ret (-1)
        { state_populated 5 with
          trace := [Event.stat "/tmp/eatmydata", Event.real 103 (Call.call_fsync 3)] } :=
  (forwards_when_inactive cfg_marker env_resolving (state_populated 7)
    { state_populated 7 with trace := [Event.stat "/tmp/eatmydata"] } rfl rfl
    3 0 0 0 0 0 0 "" 0 0 (by decide)).1 (by decide)

/-! ## C9: the variadic mode argument -/

/-- C9 fails as stated: `open` called with flags 0 (the `O_CREAT` bit is clear)
passes to the real `open` whatever the variadic slot holds, so two calls that
differ only in that slot forward different modes. -/
theorem open_reads_mode_without_creat :
    Int.land 0 cfg_unconditional.O_CREAT = 0 ∧
    eatmydata_open cfg_unconditional env_resolving "/etc/motd" 0 1 (state_populated 0) =
      Outcome.ret (-1) { state_populated 5 with
        trace := [Event.real 101 (Call.call_open "/etc/motd" 0 1)] } ∧
    eatmydata_open cfg_unconditional env_resolving "/etc/motd" 0 2 (state_populated 0) =
      Outcome.ret (-1) { state_populated 5 with
        trace := [Event.real 101 (Call.call_open "/etc/motd" 0 2)] } := by
  have h0 : strip_sync cfg_unconditional 0 = 0 :=
    (strip_sync_nat cfg_unconditional 0 0x101000 0x1000 rfl rfl).trans (by decide)
  refine ⟨by decide, ?_, ?_⟩
  · simp only [eatmydata_open, eatmydata_is_hungry, Outcome.bind, state_populated]
    simp only [h0]
    rfl
  · simp only [eatmydata_open, eatmydata_is_hungry, Outcome.bind, state_populated]
    simp only [h0]
    rfl

/-- C9, amended: `open` and `open64` read the variadic slot on every call,
whatever the flags are (the code never tests `O_CREAT`). Whenever they forward
(`initing` is 0 and `eatmydata_is_hungry` has returned), the mode they pass is
the value read from the slot, for every flags value; only on the reentrant
path (`initing` set) is the value read not used. -/
theorem open_mode_read_unconditionally (cfg : Config) (env : Env) (pathname : String)
    (flags va : Int) (s : State) :
    (s.initing = 0 → ∀ h s1, eatmydata_is_hungry cfg env s = Outcome.ret h s1 →
      eatmydata_open cfg env pathname flags va s =
        forward_verbatim env s1.libc_open
          (Call.call_open pathname (if h ≠ 0 then strip_sync cfg flags else flags)
            (va_arg_mode cfg va)) s1 ∧
      (s1.libc_open64 ≠ 0 →
        eatmydata_open64 cfg env pathname flags va s =
          forward_verbatim env s1.libc_open64
            (Call.call_open64 pathname (if h ≠ 0 then strip_sync cfg flags else flags)
              (va_arg_mode cfg va)) s1)) ∧
    (s.initing ≠ 0 → ∀ va2,
      eatmydata_open cfg env pathname flags va s =
        eatmydata_open cfg env pathname flags va2 s ∧
      eatmydata_open64 cfg env pathname flags va s =
        eatmydata_open64 cfg env pathname flags va2 s) := by
  constructor
  · intro hi h s1 hh
    constructor
    · simp only [eatmydata_open, hi, ne_eq, not_true_eq_false, if_false, hh, Outcome.bind]
      exact REAL_resolved _ _ _ _ (is_hungry_ret_open hh)
    · intro h64
      simp only [eatmydata_open64, hi, ne_eq, not_true_eq_false, if_false, hh, Outcome.bind]
      exact REAL_resolved _ _ _ _ h64
  · intro hi va2
    simp [eatmydata_open, eatmydata_open64, hi]

/-- Witness of the amended C9: flags 0, slot value 2, marker-gated build with
the marker absent. -/
theorem open_mode_read_unconditionally_witness :
    eatmydata_open cfg_marker env_resolving "/etc/motd" 0 2 (state_populated 0) =
      Outcome.ret (-1) { state_populated 5 with
        trace := [Event.stat "/tmp/eatmydata",
                  Event.real 101 (Call.call_open "/etc/motd" 0 2)] } :=
  ((open_mode_read_unconditionally cfg_marker env_resolving "/etc/motd" 0 2
    (state_populated 0)).1 rfl 0
    { state_populated 0 with trace := [Event.stat "/tmp/eatmydata"] } rfl).1

/-! ## C8: the reentrancy flag and the flush overrides -/

/-- C8 fails as stated: called while `initing` is 1, `fsync` short-circuits
with the synthetic success in the shipped build, forwards to the real `fsync`
in the marker-gated build with the marker absent, and re-enters the symbol
resolution when `libc_open` is still `NULL`. It never fails with `EFAULT`. -/
theorem fsync_ignores_initing :
    eatmydata_fsync cfg_unconditional env_resolving 3 { state_populated 7 with initing := 1 } =
      Outcome.ret 0 { state_populated 0 with
        initing := 1, trace := [Event.pthread_testcancel 7] } ∧
    eatmydata_fsync cfg_marker env_resolving 3 { state_populated 7 with initing := 1 } =
      Outcome.ret (-1) { state_populated 5 with
        initing := 1,
        trace := [Event.stat "/tmp/eatmydata", Event.real 103 (Call.call_fsync 3)] } ∧
    eatmydata_fsync cfg_unconditional env_resolving 3 { State.initial 7 with initing := 1 } =
      Outcome.ret 0 { state_populated 0 with trace :=
        [Event.dlsym Sym.sym_open, Event.dlerror, Event.dlsym Sym.sym_open64, Event.dlerror,
         Event.dlsym Sym.sym_fsync, Event.dlerror, Event.dlsym Sym.sym_sync, Event.dlerror,
         Event.dlsym Sym.sym_fdatasync, Event.dlerror, Event.dlsym Sym.sym_msync,
         Event.dlerror, Event.dlsym Sym.sym_sync_file_range, Event.dlerror,
         Event.pthread_testcancel 7] } :=
  ⟨rfl, rfl, rfl⟩

theorem is_hungry_set_initing (cfg : Config) (env : Env) (s : State) (v : Int) :
    (eatmydata_is_hungry cfg env { s with initing := v } =
        eatmydata_is_hungry cfg env s ∧ s.libc_open = 0) ∨
    (s.libc_open ≠ 0 ∧ ∃ h s1, eatmydata_is_hungry cfg env s = Outcome.ret h s1 ∧
      eatmydata_is_hungry cfg env { s with initing := v } =
        Outcome.ret h { s1 with initing := v }) := by
  by_cases hp : s.libc_open = 0
  · left
    refine ⟨?_, hp⟩
    rw [is_hungry_unpopulated cfg env s hp,
      is_hungry_unpopulated cfg env { s with initing := v } hp]
    rfl
  · right
    refine ⟨hp, ?_⟩
    rw [is_hungry_populated cfg env s hp,
      is_hungry_populated cfg env { s with initing := v } hp]
    cases cfg.CHECK_FILE with
    | none => exact ⟨_, _, rfl, rfl⟩
    | some path => exact ⟨_, _, rfl, rfl⟩

/-- C8, amended: only `open` and `open64` consult `initing`; called while it is
set they return -1 with `errno = EFAULT` and do nothing else. `fsync`, `sync`,
`fdatasync`, `msync` and `sync_file_range` never read it: for every state and
every value `v` of the flag, the call made with `initing = v` ends exactly as
the call made in the state as it is (same value returned, same `errno`, same
external actions, same table), the `initing` field itself apart. -/
theorem flush_overrides_ignore_initing (cfg : Config) (env : Env) (s : State) (v : Int)
    (fd : Int) (addr length : Nat) (mflags : Int) (offset nbytes : Int) (rflags : Nat)
    (pathname : String) (flags va : Int) :
    (v ≠ 0 →
      eatmydata_open cfg env pathname flags va { s with initing := v } =
        Outcome.ret (-1) { s with initing := v, errno := cfg.EFAULT } ∧
      eatmydata_open64 cfg env pathname flags va { s with initing := v } =
        Outcome.ret (-1) { s with initing := v, errno := cfg.EFAULT }) ∧
    (eatmydata_fsync cfg env fd { s with initing := v }).with_initing 0 =
      (eatmydata_fsync cfg env fd s).with_initing 0 ∧
    (eatmydata_sync cfg env { s with initing := v }).with_initing 0 =
      (eatmydata_sync cfg env s).with_initing 0 ∧
    (eatmydata_fdatasync cfg env fd { s with initing := v }).with_initing 0 =
      (eatmydata_fdatasync cfg env fd s).with_initing 0 ∧
    (eatmydata_msync cfg env addr length mflags { s with initing := v }).with_initing 0 =
      (eatmydata_msync cfg env addr length mflags s).with_initing 0 ∧
    (eatmydata_sync_file_range cfg env fd offset nbytes rflags
        { s with initing := v }).with_initing 0 =
      (eatmydata_sync_file_range cfg env fd offset nbytes rflags s).with_initing 0 := by
  refine ⟨?_, ?_, ?_, ?_, ?_, ?_⟩
  · intro hv
    simp [eatmydata_open, eatmydata_open64, hv]
  all_goals
    rcases is_hungry_set_initing cfg env s v with ⟨e, -⟩ | ⟨-, h, s1, e1, e2⟩
    · simp only [eatmydata_fsync, eatmydata_sync, eatmydata_fdatasync, eatmydata_msync,
        eatmydata_sync_file_range, e]
    · simp only [eatmydata_fsync, eatmydata_sync, eatmydata_fdatasync, eatmydata_msync,
        eatmydata_sync_file_range, e1, e2, Outcome.bind, suppressed, REAL]
      split_ifs <;> rfl

/-- Witness of the amended C8: `open` while `initing` is 1. -/
theorem flush_overrides_ignore_initing_witness :
    eatmydata_open cfg_unconditional env_resolving "/etc/motd" 0 0
        { state_populated 7 with initing := 1 } =
      Outcome.ret (-1) { state_populated 14 with initing := 1 } :=
  ((flush_overrides_ignore_initing cfg_unconditional env_resolving (state_populated 7) 1
    0 0 0 0 0 0 0 "/etc/motd" 0 0).1 (by decide)).1

/-! ## C6: the population routine -/

theorem init_eq_resolve (cfg : Config) (env : Env) (s : State) :
    eatmydata_init cfg env s =
      (resolve_or_die env mandatory { s with initing := 1 }).bind fun _ s6 =>
        (if cfg.HAVE_SYNC_FILE_RANGE then ASSIGN_DLSYM_IF_EXIST env Sym.sym_sync_file_range s6
         else Outcome.ret () s6).bind fun _ s7 => Outcome.ret () { s7 with initing := 0 } := by
  unfold eatmydata_init mandatory
  simp only [resolve_or_die]
  cases ASSIGN_DLSYM_OR_DIE env Sym.sym_open { s with initing := 1 } <;> simp only [Outcome.bind]
  rename_i v s1
  cases ASSIGN_DLSYM_OR_DIE env Sym.sym_open64 s1 <;> simp only [Outcome.bind]
  rename_i v s2
  cases ASSIGN_DLSYM_OR_DIE env Sym.sym_fsync s2 <;> simp only [Outcome.bind]
  rename_i v s3
  cases ASSIGN_DLSYM_OR_DIE env Sym.sym_sync s3 <;> simp only [Outcome.bind]
  rename_i v s4
  cases ASSIGN_DLSYM_OR_DIE env Sym.sym_fdatasync s4 <;> simp only [Outcome.bind]
  rename_i v s5
  cases ASSIGN_DLSYM_OR_DIE env Sym.sym_msync s5 <;> simp only [Outcome.bind]

theorem AllLooked_congr (env : Env) (hist : List Event) (ns : List Sym) (s1 s2 : State)
    (h : ∀ m ∈ ns, s2.entry m = s1.entry m) (h1 : AllLooked env hist ns s1) :
    AllLooked env hist ns s2 := by
  induction ns generalizing hist with
  | nil => trivial
  | cons n ns ih =>
    obtain ⟨a, b, c, d⟩ := h1
    have hn := h n (List.mem_cons_self _ _)
    refine ⟨by rw [hn]; exact a, by rw [hn]; exact b, c, ?_⟩
    exact ih _ (fun m hm => h m (List.mem_cons_of_mem _ hm)) d

/-- One `ASSIGN_DLSYM_OR_DIE`, in full. -/
theorem or_die_cases (env : Env) (n : Sym) (s : State) :
    (∃ s1, ASSIGN_DLSYM_OR_DIE env n s = Outcome.ret () s1 ∧
      s1.entry n = env.dlsym s.trace n ∧ s1.entry n ≠ 0 ∧
      env.dlerror (s.trace ++ [Event.dlsym n]) = false ∧
      s1.trace = s.trace ++ [Event.dlsym n, Event.dlerror] ∧
      s1.initing = s.initing ∧ ∀ m, m ≠ n → s1.entry m = s.entry m) ∨
    (∃ s1, ASSIGN_DLSYM_OR_DIE env n s = Outcome.exit 1 s1 ∧
      s1.entry n = env.dlsym s.trace n ∧
      ((s1.entry n = 0 ∧ s1.trace = s.trace ++ [Event.dlsym n]) ∨
       (s1.entry n ≠ 0 ∧ env.dlerror (s.trace ++ [Event.dlsym n]) = true ∧
        s1.trace = s.trace ++ [Event.dlsym n, Event.dlerror])) ∧
      s1.initing = s.initing ∧ ∀ m, m ≠ n → s1.entry m = s.entry m) := by
  have e1 : (dlsym_assign env n s).entry n = env.dlsym s.trace n := by
    cases n <;> rfl
  have e2 : (dlsym_assign env n s).trace = s.trace ++ [Event.dlsym n] := by
    cases n <;> rfl
  have e3 : (dlsym_assign env n s).initing = s.initing := by
    cases n <;> rfl
  have e4 : ∀ m, m ≠ n → (dlsym_assign env n s).entry m = s.entry m := by
    intro m hm
    cases n <;> cases m <;> first | rfl | exact absurd rfl hm
  have g : ∀ (t : State) (l : List Event) (m : Sym),
      ({ t with trace := l } : State).entry m = t.entry m := by
    intro t l m; cases m <;> rfl
  unfold ASSIGN_DLSYM_OR_DIE
  simp only []
  by_cases h0 : (dlsym_assign env n s).entry n = 0
  · right
    rw [if_pos h0]
    exact ⟨_, rfl, e1, Or.inl ⟨h0, e2⟩, e3, e4⟩
  · rw [if_neg h0]
    by_cases h1 : env.dlerror (dlsym_assign env n s).trace = true
    · right
      rw [if_pos h1]
      refine ⟨_, rfl, ?_, Or.inr ⟨?_, ?_, ?_⟩, e3, ?_⟩
      · rw [g]; exact e1
      · rw [g]; exact h0
      · rw [← e2]; exact h1
      · show (dlsym_assign env n s).trace ++ [Event.dlerror] = _
        rw [e2]; simp
      · intro m hm; rw [g]; exact e4 m hm
    · left
      rw [if_neg h1]
      refine ⟨_, rfl, ?_, ?_, ?_, ?_, e3, ?_⟩
      · rw [g]; exact e1
      · rw [g]; exact h0
      · rw [← e2]; simpa using h1
      · show (dlsym_assign env n s).trace ++ [Event.dlerror] = _
        rw [e2]; simp
      · intro m hm; rw [g]; exact e4 m hm

theorem hist_cons (hist : List Event) (a : Sym) (pre : List Sym) :
    hist ++ [Event.dlsym a, Event.dlerror] ++ lookup_events pre =
      hist ++ lookup_events (a :: pre) := by
  simp [lookup_events]

/-- A run of `ASSIGN_DLSYM_OR_DIE` over distinct names either resolves them
all, or exits with status 1 at the first name whose lookup fails, having
touched no entry after it. -/
theorem resolve_or_die_cases (env : Env) (names : List Sym) (s : State)
    (hnd : names.Nodup) :
    (∃ s', resolve_or_die env names s = Outcome.ret () s' ∧
      AllLooked env s.trace names s' ∧
      s'.trace = s.trace ++ lookup_events names ∧
      s'.initing = s.initing ∧ ∀ m, m ∉ names → s'.entry m = s.entry m) ∨
    (∃ pre n post s', names = pre ++ n :: post ∧
      resolve_or_die env names s = Outcome.exit 1 s' ∧
      AllLooked env s.trace pre s' ∧
      s'.entry n = env.dlsym (s.trace ++ lookup_events pre) n ∧
      ((s'.entry n = 0 ∧ s'.trace = s.trace ++ lookup_events pre ++ [Event.dlsym n]) ∨
       (s'.entry n ≠ 0 ∧
        env.dlerror (s.trace ++ lookup_events pre ++ [Event.dlsym n]) = true ∧
        s'.trace = s.trace ++ lookup_events pre ++ [Event.dlsym n, Event.dlerror])) ∧
      s'.initing = s.initing ∧ ∀ m, m ∉ pre → m ≠ n → s'.entry m = s.entry m) := by
  induction names generalizing s with
  | nil =>
    left
    exact ⟨s, rfl, trivial, by simp [lookup_events], rfl, fun _ _ => rfl⟩
  | cons a ns ih =>
    obtain ⟨ha, hns⟩ := List.nodup_cons.mp hnd
    rcases or_die_cases env a s with ⟨s1, h1, ea, na, da, t1, i1, f1⟩ | ⟨s1, h1, ea, hf, i1, f1⟩
    · rcases ih s1 hns with ⟨s', h2, al, t2, i2, f2⟩ | ⟨pre, n, post, s', hsplit, h2, al, en, hf, i2, f2⟩
      · left
        refine ⟨s', ?_, ?_, ?_, ?_, ?_⟩
        · simp only [resolve_or_die, h1, Outcome.bind]; exact h2
        · refine ⟨?_, ?_, da, ?_⟩
          · rw [f2 a ha]; exact ea
          · rw [f2 a ha]; exact na
          · rw [← t1]; exact al
        · rw [t2, t1]; exact hist_cons _ _ _
        · rw [i2, i1]
        · intro m hm
          have hm' := not_or.mp (fun hh => hm (List.mem_cons.mpr hh))
          rw [f2 m hm'.2, f1 m hm'.1]
      · right
        have hapre : a ∉ pre := by
          intro hh; exact ha (by rw [hsplit]; exact List.mem_append_left _ hh)
        have han : a ≠ n := by
          intro hh; exact ha (by rw [hsplit, hh]; simp)
        refine ⟨a :: pre, n, post, s', by rw [hsplit]; rfl, ?_, ?_, ?_, ?_, ?_, ?_⟩
        · simp only [resolve_or_die, h1, Outcome.bind]; exact h2
        · refine ⟨?_, ?_, da, ?_⟩
          · rw [f2 a hapre han]; exact ea
          · rw [f2 a hapre han]; exact na
          · rw [← t1]; exact al
        · rw [en, t1, hist_cons]
        · rw [t1, hist_cons] at hf
          exact hf
        · rw [i2, i1]
        · intro m hm hmn
          have hm' := not_or.mp (fun hh => hm (List.mem_cons.mpr hh))
          rw [f2 m hm'.2 hmn, f1 m hm'.1]
    · right
      refine ⟨[], a, ns, s1, rfl, ?_, trivial, ?_, ?_, i1, ?_⟩
      · simp only [resolve_or_die, h1, Outcome.bind]
      · simpa [lookup_events] using ea
      · simpa [lookup_events] using hf
      · intro m _ hm; exact f1 m hm

/-- C6: for every behaviour of `dlsym` and `dlerror`, `eatmydata_init` looks up
`open`, `open64`, `fsync`, `sync`, `fdatasync`, `msync` in this order. Either
all six lookups succeed: then it returns with `initing = 0` and each of the six
entries non-`NULL` and equal to the pointer looked up, whatever the lookup of
`sync_file_range` (made after them when `HAVE_SYNC_FILE_RANGE`) gave. Or the
list splits at the first name `n` whose lookup returned `NULL` or reported an
error: then the process exits with status 1, the trace ends with the lookup of
`n`, the names before `n` are resolved, and the entries of the names after `n`
and of `sync_file_range` are untouched. -/
theorem init_resolves_in_order_or_dies (cfg : Config) (env : Env) (s : State) :
    (∃ s', eatmydata_init cfg env s = Outcome.ret () s' ∧ s'.initing = 0 ∧
      AllLooked env s.trace mandatory s' ∧ s'.populated ∧
      s'.trace = s.trace ++ lookup_events mandatory ++
        (if cfg.HAVE_SYNC_FILE_RANGE then lookup_events [Sym.sym_sync_file_range] else [])) ∨
    (∃ pre n post s', mandatory = pre ++ n :: post ∧
      eatmydata_init cfg env s = Outcome.exit 1 s' ∧
      AllLooked env s.trace pre s' ∧
      s'.entry n = env.dlsym (s.trace ++ lookup_events pre) n ∧
      ((s'.entry n = 0 ∧ s'.trace = s.trace ++ lookup_events pre ++ [Event.dlsym n]) ∨
       (s'.entry n ≠ 0 ∧
        env.dlerror (s.trace ++ lookup_events pre ++ [Event.dlsym n]) = true ∧
        s'.trace = s.trace ++ lookup_events pre ++ [Event.dlsym n, Event.dlerror])) ∧
      (∀ m ∈ post, s'.entry m = s.entry m) ∧
      s'.libc_sync_file_range = s.libc_sync_file_range) := by
  have hnd : mandatory.Nodup := by decide
  have g : ∀ m, ({ s with initing := 1 } : State).entry m = s.entry m := by
    intro m; cases m <;> rfl
  rw [init_eq_resolve]
  rcases resolve_or_die_cases env mandatory { s with initing := 1 } hnd with
    ⟨s6, h6, al, t6, -, -⟩ | ⟨pre, n, post, s', hsplit, h', al, en, hf, -, fr⟩
  · left
    rw [h6]
    simp only [Outcome.bind]
    by_cases hv : cfg.HAVE_SYNC_FILE_RANGE = true
    · rw [if_pos hv]
      obtain ⟨s7, h7, f7, -⟩ := if_exist_entries env s6
      rw [h7]
      have g7 : ∀ m, ({ s7 with initing := 0 } : State).entry m = s7.entry m := by
        intro m; cases m <;> rfl
      have al7 : AllLooked env s.trace mandatory { s7 with initing := 0 } := by
        refine AllLooked_congr env _ _ s6 _ ?_ al
        intro m hm
        rw [g7, f7 m (by intro hh; rw [hh] at hm; revert hm; decide)]
      refine ⟨_, rfl, rfl, al7, ?_, ?_⟩
      · rw [populated_iff_entries]
        simp only [mandatory, AllLooked] at al7
        exact ⟨al7.2.1, al7.2.2.2.2.1, al7.2.2.2.2.2.2.2.1, al7.2.2.2.2.2.2.2.2.2.2.1,
          al7.2.2.2.2.2.2.2.2.2.2.2.2.2.1, al7.2.2.2.2.2.2.2.2.2.2.2.2.2.2.2.2.1⟩
      · simp only [ASSIGN_DLSYM_IF_EXIST, Outcome.ret.injEq, true_and] at h7
        rw [← h7]
        show (dlsym_assign env Sym.sym_sync_file_range s6).trace ++ [Event.dlerror] = _
        show s6.trace ++ [Event.dlsym Sym.sym_sync_file_range] ++ [Event.dlerror] = _
        rw [t6]
        simp [lookup_events, hv]
    · rw [if_neg hv]
      have g6 : ∀ m, ({ s6 with initing := 0 } : State).entry m = s6.entry m := by
        intro m; cases m <;> rfl
      have al6 : AllLooked env s.trace mandatory { s6 with initing := 0 } :=
        AllLooked_congr env _ _ s6 _ (fun m _ => g6 m) al
      refine ⟨_, rfl, rfl, al6, ?_, ?_⟩
      · rw [populated_iff_entries]
        simp only [mandatory, AllLooked] at al6
        exact ⟨al6.2.1, al6.2.2.2.2.1, al6.2.2.2.2.2.2.2.1, al6.2.2.2.2.2.2.2.2.2.2.1,
          al6.2.2.2.2.2.2.2.2.2.2.2.2.2.1, al6.2.2.2.2.2.2.2.2.2.2.2.2.2.2.2.2.1⟩
      · show s6.trace = _
        rw [t6]
        simp [hv]
  · right
    have hnd' : (pre ++ n :: post).Nodup := hsplit ▸ hnd
    have hmem : ∀ m ∈ post, m ∉ pre ∧ m ≠ n := by
      intro m hm
      have h1 := List.nodup_append.mp hnd'
      refine ⟨fun hp => ?_, fun hn => ?_⟩
      · exact h1.2.2 hp (List.mem_cons_of_mem _ hm)
      · have h2 := (List.nodup_cons.mp h1.2.1).1
        exact h2 (hn ▸ hm)
    have hrange : Sym.sym_sync_file_range ∉ pre ∧ Sym.sym_sync_file_range ≠ n := by
      have hnot : Sym.sym_sync_file_range ∉ mandatory := by decide
      rw [hsplit] at hnot
      constructor
      · intro hh; exact hnot (List.mem_append_left _ hh)
      · intro hh; exact hnot (by rw [hh]; simp)
    refine ⟨pre, n, post, s', hsplit, by rw [h']; rfl, al, en, hf, ?_, ?_⟩
    · intro m hm
      rw [fr m (hmem m hm).1 (hmem m hm).2, g]
    · have := fr _ hrange.1 hrange.2
      rw [g] at this
      exact this

/-! ## C10: interleavings of override calls and population steps -/

/-- The nine statements in sequence are the body of `eatmydata_init`. -/
theorem init_eq_stmts (cfg : Config) (env : Env) (s : State) :
    eatmydata_init cfg env s =
      (eatmydata_init_stmt cfg env 0 s).bind fun _ s =>
      (eatmydata_init_stmt cfg env 1 s).bind fun _ s =>
      (eatmydata_init_stmt cfg env 2 s).bind fun _ s =>
      (eatmydata_init_stmt cfg env 3 s).bind fun _ s =>
      (eatmydata_init_stmt cfg env 4 s).bind fun _ s =>
      (eatmydata_init_stmt cfg env 5 s).bind fun _ s =>
      (eatmydata_init_stmt cfg env 6 s).bind fun _ s =>
      (eatmydata_init_stmt cfg env 7 s).bind fun _ s =>
      eatmydata_init_stmt cfg env 8 s := rfl

/-- C10 fails as stated, in the marker-gated build with the marker absent.
(1) After the first two statements of the population (`initing = 1`,
`libc_open` resolved, `libc_fsync` still `NULL`) a call of `fsync` forwards
through the `NULL` entry. (2) After a complete population in which the lookup
of `sync_file_range` returned `NULL`, a call of `sync_file_range` forwards
through the `NULL` entry. (3) The same happens to each flush override at every
point of the first population after the lookup of `open` and before its own
lookup: `fsync` after 2 or 3 statements, `sync` after 2 to 4, `fdatasync`
after 2 to 5, `msync` after 2 to 6, `sync_file_range` after 2 to 7. -/
theorem forwards_through_unresolved_entry :
    (∃ p, run cfg_marker env_resolving [Action.population, Action.population]
        (Process.initial 0) = some p ∧ p.pc = 2 ∧ p.st.initing = 1 ∧
        p.st.libc_open = 101 ∧ p.st.libc_fsync = 0 ∧
        (invoke cfg_marker env_resolving (Invocation.inv_fsync 3) p.st).faulted = true) ∧
    (∃ p, run cfg_marker env_no_range
        [Action.population, Action.population, Action.population, Action.population,
         Action.population, Action.population, Action.population, Action.population,
         Action.population] (Process.initial 0) = some p ∧ p.pc = 0 ∧ p.st.initing = 0 ∧
        p.st.populated ∧ p.st.libc_sync_file_range = 0 ∧
        (invoke cfg_marker env_no_range
          (Invocation.inv_sync_file_range 3 0 4096 2) p.st).faulted = true) ∧
    (∀ k ∈ [2, 3],
      faults_after cfg_marker env_resolving k (Invocation.inv_fsync 3) = some true) ∧
    (∀ k ∈ [2, 3, 4],
      faults_after cfg_marker env_resolving k Invocation.inv_sync = some true) ∧
    (∀ k ∈ [2, 3, 4, 5],
      faults_after cfg_marker env_resolving k (Invocation.inv_fdatasync 3) = some true) ∧
    (∀ k ∈ [2, 3, 4, 5, 6],
      faults_after cfg_marker env_resolving k (Invocation.inv_msync 0 4096 4) =
        some true) ∧
    (∀ k ∈ [2, 3, 4, 5, 6, 7],
      faults_after cfg_marker env_resolving k (Invocation.inv_sync_file_range 3 0 4096 2) =
        some true) := by
  refine ⟨?_, ?_, ?_, ?_, ?_, ?_, ?_⟩
  · exact ⟨_, rfl, rfl, rfl, rfl, rfl, rfl⟩
  · refine ⟨_, rfl, rfl, rfl, ?_, rfl, rfl⟩
    simp [State.populated]
    decide
  · simp only [List.mem_cons, List.mem_singleton, List.not_mem_nil, or_false, forall_eq_or_imp,
      forall_eq]
    exact ⟨rfl, rfl⟩
  · simp only [List.mem_cons, List.mem_singleton, List.not_mem_nil, or_false, forall_eq_or_imp,
      forall_eq]
    exact ⟨rfl, rfl, rfl⟩
  · simp only [List.mem_cons, List.mem_singleton, List.not_mem_nil, or_false, forall_eq_or_imp,
      forall_eq]
    exact ⟨rfl, rfl, rfl, rfl⟩
  · simp only [List.mem_cons, List.mem_singleton, List.not_mem_nil, or_false, forall_eq_or_imp,
      forall_eq]
    exact ⟨rfl, rfl, rfl, rfl, rfl⟩
  · simp only [List.mem_cons, List.mem_singleton, List.not_mem_nil, or_false, forall_eq_or_imp,
      forall_eq]
    exact ⟨rfl, rfl, rfl, rfl, rfl, rfl⟩

theorem or_die_fields {env : Env} {name : Sym} {s s' : State} {v : Unit}
    (h : ASSIGN_DLSYM_OR_DIE env name s = Outcome.ret v s') :
    s'.initing = s.initing ∧ s'.entry name ≠ 0 ∧
    (name ≠ Sym.sym_open → s'.libc_open = s.libc_open) ∧
    (name ≠ Sym.sym_open64 → s'.libc_open64 = s.libc_open64) ∧
    (name ≠ Sym.sym_fsync → s'.libc_fsync = s.libc_fsync) ∧
    (name ≠ Sym.sym_sync → s'.libc_sync = s.libc_sync) ∧
    (name ≠ Sym.sym_fdatasync → s'.libc_fdatasync = s.libc_fdatasync) ∧
    (name ≠ Sym.sym_msync → s'.libc_msync = s.libc_msync) := by
  obtain ⟨n, f, i⟩ := or_die_ret_entries h
  exact ⟨i, n, fun hn => f Sym.sym_open (Ne.symm hn), fun hn => f Sym.sym_open64 (Ne.symm hn),
    fun hn => f Sym.sym_fsync (Ne.symm hn), fun hn => f Sym.sym_sync (Ne.symm hn),
    fun hn => f Sym.sym_fdatasync (Ne.symm hn), fun hn => f Sym.sym_msync (Ne.symm hn)⟩

/-- No statement of `eatmydata_init` is a cancellation point of the model: a
statement after which the process goes on has returned. -/
theorem stmt_alive {cfg : Config} {env : Env} {k : Nat} {s s1 : State}
    (h : (eatmydata_init_stmt cfg env k s).alive = some s1) :
    eatmydata_init_stmt cfg env k s = Outcome.ret () s1 := by
  have key : ∀ n t, (ASSIGN_DLSYM_OR_DIE env n t).alive = some s1 →
      ASSIGN_DLSYM_OR_DIE env n t = Outcome.ret () s1 := by
    intro n t ht
    rcases or_die_outcome env n t with ⟨s2, h2⟩ | ⟨s2, h2⟩
    · rw [h2] at ht ⊢
      simp only [Outcome.alive, Option.some.injEq] at ht
      rw [ht]
    · rw [h2] at ht
      simp [Outcome.alive] at ht
  match k with
  | 0 => simp only [eatmydata_init_stmt, Outcome.alive, Option.some.injEq] at h ⊢; rw [h]
  | 1 => exact key _ _ h
  | 2 => exact key _ _ h
  | 3 => exact key _ _ h
  | 4 => exact key _ _ h
  | 5 => exact key _ _ h
  | 6 => exact key _ _ h
  | 7 =>
    simp only [eatmydata_init_stmt] at h ⊢
    split_ifs at h ⊢
    · simp only [ASSIGN_DLSYM_IF_EXIST, Outcome.alive, Option.some.injEq] at h ⊢; rw [h]
    · simp only [Outcome.alive, Option.some.injEq] at h ⊢; rw [h]
  | n + 8 => simp only [eatmydata_init_stmt, Outcome.alive, Option.some.injEq] at h ⊢; rw [h]

theorem population_step_inv (cfg : Config) (env : Env) (p q : Process) (hp : Inv p)
    (h : step cfg env Action.population p = some q) : Inv q := by
  obtain ⟨st, pc⟩ := p
  obtain ⟨h8, hmode⟩ := hp
  simp only at h8 hmode
  simp only [step] at h
  cases ha : (eatmydata_init_stmt cfg env pc st).alive with
  | none => rw [ha] at h; simp at h
  | some s1 =>
    rw [ha] at h
    simp only [Option.some.injEq] at h
    subst h
    have hs := stmt_alive ha
    simp only [Inv, State.populated] at *
    interval_cases pc
    · simp only [eatmydata_init_stmt, Outcome.ret.injEq, true_and] at hs
      subst hs
      simp_all
      tauto
    · obtain ⟨i, n, f1, f2, f3, f4, f5, f6⟩ := or_die_fields hs
      simp only [State.entry] at n
      simp_all
      tauto
    · obtain ⟨i, n, f1, f2, f3, f4, f5, f6⟩ := or_die_fields hs
      simp only [State.entry] at n
      simp_all
      tauto
    · obtain ⟨i, n, f1, f2, f3, f4, f5, f6⟩ := or_die_fields hs
      simp only [State.entry] at n
      simp_all
      tauto
    · obtain ⟨i, n, f1, f2, f3, f4, f5, f6⟩ := or_die_fields hs
      simp only [State.entry] at n
      simp_all
      tauto
    · obtain ⟨i, n, f1, f2, f3, f4, f5, f6⟩ := or_die_fields hs
      simp only [State.entry] at n
      simp_all
      tauto
    · obtain ⟨i, n, f1, f2, f3, f4, f5, f6⟩ := or_die_fields hs
      simp only [State.entry] at n
      simp_all
      tauto
    · have f : s1.initing = st.initing ∧ s1.libc_open = st.libc_open ∧
          s1.libc_open64 = st.libc_open64 ∧ s1.libc_fsync = st.libc_fsync ∧
          s1.libc_sync = st.libc_sync ∧ s1.libc_fdatasync = st.libc_fdatasync ∧
          s1.libc_msync = st.libc_msync := by
        simp only [eatmydata_init_stmt] at hs
        split_ifs at hs
        · simp only [ASSIGN_DLSYM_IF_EXIST, Outcome.ret.injEq, true_and] at hs
          subst hs
          exact ⟨rfl, rfl, rfl, rfl, rfl, rfl, rfl⟩
        · simp only [Outcome.ret.injEq, true_and] at hs
          subst hs
          exact ⟨rfl, rfl, rfl, rfl, rfl, rfl, rfl⟩
      simp_all
    · simp only [eatmydata_init_stmt, Outcome.ret.injEq, true_and] at hs
      subst hs
      simp_all
      tauto

theorem vars_fields {s s' : State} (h : s'.vars = s.vars) :
    s'.libc_open = s.libc_open ∧ s'.libc_open64 = s.libc_open64 ∧
    s'.libc_fsync = s.libc_fsync ∧ s'.libc_sync = s.libc_sync ∧
    s'.libc_fdatasync = s.libc_fdatasync ∧ s'.libc_msync = s.libc_msync ∧
    s'.libc_sync_file_range = s.libc_sync_file_range ∧ s'.initing = s.initing := by
  simp only [State.vars, State.mk.injEq, and_true] at h
  exact h

theorem REAL_alive_vars {env : Env} {ptr : Nat} {c : Call} {s s' : State}
    (h : (REAL env ptr c s).alive = some s') : s'.vars = s.vars := by
  unfold REAL at h
  split_ifs at h
  · simp [Outcome.alive] at h
  · simp only [Outcome.alive, Option.some.injEq] at h
    rw [← h]
    rfl

theorem REAL_safe (env : Env) (ptr : Nat) (c : Call) (s : State) (h : ptr ≠ 0) :
    (REAL env ptr c s).faulted = false := by
  simp [REAL, h, Outcome.faulted]

theorem REAL_faulted (env : Env) (ptr : Nat) (c : Call) (s : State) :
    (REAL env ptr c s).faulted = true ↔ ptr = 0 := by
  by_cases h : ptr = 0
  · simp [REAL, h, Outcome.faulted]
  · simp [REAL, h, Outcome.faulted]

theorem suppressed_safe (env : Env) (s : State) : (suppressed env s).faulted = false := by
  unfold suppressed
  simp only []
  split_ifs <;> rfl

theorem suppressed_alive_vars {env : Env} {s s' : State}
    (h : (suppressed env s).alive = some s') : s'.vars = s.vars := by
  unfold suppressed at h
  simp only [] at h
  split_ifs at h
  · simp only [Outcome.alive, Option.some.injEq] at h
    rw [← h]
    rfl
  · simp only [Outcome.alive, Option.some.injEq] at h
    rw [← h]
    rfl

theorem is_hungry_outcome (cfg : Config) (env : Env) (s : State) :
    (∃ h s1, eatmydata_is_hungry cfg env s = Outcome.ret h s1) ∨
    (∃ s1, eatmydata_is_hungry cfg env s = Outcome.exit 1 s1) := by
  by_cases hp : s.libc_open = 0
  · rw [is_hungry_unpopulated cfg env s hp]
    rcases init_outcome cfg env s with ⟨s1, h1⟩ | ⟨s1, h1⟩
    · left
      rw [h1]
      cases cfg.CHECK_FILE with
      | none => exact ⟨_, _, rfl⟩
      | some path => exact ⟨_, _, rfl⟩
    · right
      rw [h1]
      exact ⟨_, rfl⟩
  · left
    rw [is_hungry_populated cfg env s hp]
    cases cfg.CHECK_FILE with
    | none => exact ⟨_, _, rfl⟩
    | some path => exact ⟨_, _, rfl⟩

/-- After a return of `eatmydata_is_hungry` from a state whose table is
resolved or untouched, the six mandatory entries are resolved. -/
theorem is_hungry_ret_populated {cfg : Config} {env : Env} {s s1 : State} {h : Int}
    (hh : eatmydata_is_hungry cfg env s = Outcome.ret h s1)
    (hs : s.populated ∨ s.libc_open = 0) : s1.populated := by
  rcases is_hungry_ret_table hh with ⟨hp, e⟩ | ⟨-, hp, -⟩
  · rcases hs with hs | hs
    · rw [e]; exact hs
    · exact absurd hs hp
  · exact hp

/-- The state after `eatmydata_is_hungry` and what follows it either has the
static variables of the state before, or the population has run from an
untouched table to its end. -/
theorem after_hungry_vars {cfg : Config} {env : Env} {s s1 s2 : State} {h : Int}
    (hh : eatmydata_is_hungry cfg env s = Outcome.ret h s1) (hv : s2.vars = s1.vars) :
    s2.vars = s.vars ∨ (s.libc_open = 0 ∧ s2.populated ∧ s2.initing = 0) := by
  obtain ⟨a1, a2, a3, a4, a5, a6, -, a8⟩ := vars_fields hv
  rcases is_hungry_ret_table hh with ⟨-, e⟩ | ⟨hp, hpop, hi⟩
  · left
    rw [hv, e]
    rfl
  · right
    refine ⟨hp, ?_, by rw [a8]; exact hi⟩
    simp only [State.populated] at hpop ⊢
    rw [a1, a2, a3, a4, a5, a6]
    exact hpop

theorem hungry_bind_alive {cfg : Config} {env : Env} {s s' : State}
    {f : Int → State → Outcome Int}
    (hf : ∀ h s1 s2, (f h s1).alive = some s2 → s2.vars = s1.vars)
    (hr : ((eatmydata_is_hungry cfg env s).bind f).alive = some s') :
    s'.vars = s.vars ∨ (s.libc_open = 0 ∧ s'.populated ∧ s'.initing = 0) := by
  rcases is_hungry_outcome cfg env s with ⟨h, s1, hh⟩ | ⟨s1, hh⟩
  · rw [hh] at hr
    exact after_hungry_vars hh (hf h s1 s' hr)
  · rw [hh] at hr
    simp [Outcome.bind, Outcome.alive] at hr

theorem hungry_bind_safe {cfg : Config} {env : Env} {s : State}
    {f : Int → State → Outcome Int}
    (hf : ∀ h s1, eatmydata_is_hungry cfg env s = Outcome.ret h s1 →
      (f h s1).faulted = false) :
    ((eatmydata_is_hungry cfg env s).bind f).faulted = false := by
  rcases is_hungry_outcome cfg env s with ⟨h, s1, hh⟩ | ⟨s1, hh⟩
  · rw [hh]
    exact hf h s1 hh
  · rw [hh]
    rfl

theorem flush_body_alive_vars (env : Env) (ptr : Nat) (c : Call) (h : Int) (s1 s2 : State)
    (hr : (if h ≠ 0 then suppressed env s1 else REAL env ptr c s1).alive = some s2) :
    s2.vars = s1.vars := by
  split_ifs at hr
  · exact suppressed_alive_vars hr
  · exact REAL_alive_vars hr

/-- The sync override written as one step after the policy check. -/
theorem invoke_sync_eq (cfg : Config) (env : Env) (s : State) :
    invoke cfg env Invocation.inv_sync s =
      (eatmydata_is_hungry cfg env s).bind fun h s1 =>
        if h ≠ 0 then Outcome.ret 0 s1
        else (REAL env s1.libc_sync Call.call_sync s1).bind fun _ s2 => Outcome.ret 0 s2 := by
  simp only [invoke, eatmydata_sync]
  cases eatmydata_is_hungry cfg env s with
  | ret h s1 =>
    simp only [Outcome.bind]
    split_ifs
    · rfl
    · cases REAL env s1.libc_sync Call.call_sync s1 <;> rfl
  | exit c s1 => rfl
  | fault s1 => rfl
  | cancelled s1 => rfl

theorem sync_body_alive_vars (env : Env) (h : Int) (s1 s2 : State)
    (hr : (if h ≠ 0 then Outcome.ret (0 : Int) s1
      else (REAL env s1.libc_sync Call.call_sync s1).bind fun _ s3 =>
        Outcome.ret (0 : Int) s3).alive = some s2) :
    s2.vars = s1.vars := by
  split_ifs at hr
  · simp only [Outcome.alive, Option.some.injEq] at hr
    rw [← hr]
  · unfold REAL at hr
    split_ifs at hr
    · simp [Outcome.bind, Outcome.alive] at hr
    · simp only [Outcome.bind, Outcome.alive, Option.some.injEq] at hr
      rw [← hr]
      rfl

/-- An override call after which the process goes on either leaves the static
variables as they were, or has run the population from an untouched table to
its end. -/
theorem invoke_alive {cfg : Config} {env : Env} {i : Invocation} {s s' : State}
    (hr : (invoke cfg env i s).alive = some s') :
    s'.vars = s.vars ∨ (s.libc_open = 0 ∧ s'.populated ∧ s'.initing = 0) := by
  cases i with
  | inv_open p f va =>
    simp only [invoke, eatmydata_open] at hr
    split_ifs at hr
    · simp only [Outcome.alive, Option.some.injEq] at hr
      left; rw [← hr]; rfl
    · exact hungry_bind_alive (fun _ _ _ h => REAL_alive_vars h) hr
  | inv_open64 p f va =>
    simp only [invoke, eatmydata_open64] at hr
    split_ifs at hr
    · simp only [Outcome.alive, Option.some.injEq] at hr
      left; rw [← hr]; rfl
    · exact hungry_bind_alive (fun _ _ _ h => REAL_alive_vars h) hr
  | inv_fsync fd =>
    exact hungry_bind_alive (fun h s1 s2 hx => flush_body_alive_vars env _ _ h s1 s2 hx) hr
  | inv_sync =>
    rw [invoke_sync_eq] at hr
    exact hungry_bind_alive (fun h s1 s2 hx => sync_body_alive_vars env h s1 s2 hx) hr
  | inv_fdatasync fd =>
    exact hungry_bind_alive (fun h s1 s2 hx => flush_body_alive_vars env _ _ h s1 s2 hx) hr
  | inv_msync a l f =>
    exact hungry_bind_alive (fun h s1 s2 hx => flush_body_alive_vars env _ _ h s1 s2 hx) hr
  | inv_sync_file_range fd o n f =>
    exact hungry_bind_alive (fun h s1 s2 hx => flush_body_alive_vars env _ _ h s1 s2 hx) hr

theorem call_step_inv (cfg : Config) (env : Env) (i : Invocation) (p q : Process)
    (hp : Inv p) (h : step cfg env (Action.call i) p = some q) : Inv q := by
  obtain ⟨st, pc⟩ := p
  simp only [step] at h
  cases hs : (invoke cfg env i st).alive with
  | none => rw [hs] at h; simp at h
  | some s1 =>
    rw [hs] at h
    simp only [Option.some.injEq] at h
    subst h
    rcases invoke_alive hs with hv | ⟨-, hpop, hi⟩
    · obtain ⟨a1, a2, a3, a4, a5, a6, -, a8⟩ := vars_fields hv
      simp only [Inv, State.populated] at hp ⊢
      rw [a1, a2, a3, a4, a5, a6, a8]
      exact hp
    · obtain ⟨h8, -⟩ := hp
      exact ⟨h8, Or.inl ⟨hpop, fun _ => hi⟩⟩

theorem run_inv (cfg : Config) (env : Env) (acts : List Action) (p q : Process) (hp : Inv p)
    (h : run cfg env acts p = some q) : Inv q := by
  induction acts generalizing p with
  | nil =>
    simp only [run, Option.some.injEq] at h
    rw [← h]; exact hp
  | cons a rest ih =>
    simp only [run] at h
    cases hs : step cfg env a p with
    | none => rw [hs] at h; simp at h
    | some r =>
      rw [hs] at h
      refine ih r ?_ h
      cases a with
      | population => exact population_step_inv cfg env p r hp hs
      | call i => exact call_step_inv cfg env i p r hp hs

theorem initial_inv (errno : Int) : Inv (Process.initial errno) := by
  simp [Inv, Process.initial, State.initial]

theorem range_scan_append (env : Env) (hist l1 l2 : List Event) (v : Nat) :
    range_scan env hist (l1 ++ l2) v =
      range_scan env (hist ++ l1) l2 (range_scan env hist l1 v) := by
  induction l1 generalizing hist v with
  | nil => simp [range_scan]
  | cons e es ih =>
    show range_scan env (hist ++ [e]) (es ++ l2) _ = _
    rw [ih]
    simp [range_scan]

theorem latest_snoc (env : Env) (tr : List Event) (e : Event) :
    latest_range_lookup env (tr ++ [e]) =
      if e = Event.dlsym Sym.sym_sync_file_range then env.dlsym tr Sym.sym_sync_file_range
      else latest_range_lookup env tr := by
  unfold latest_range_lookup
  rw [range_scan_append]
  simp [range_scan]

theorem tracked_snoc (env : Env) (s s' : State) (e : Event) (h : Tracked env s)
    (hr : s'.libc_sync_file_range = s.libc_sync_file_range)
    (ht : s'.trace = s.trace ++ [e]) (he : e ≠ Event.dlsym Sym.sym_sync_file_range) :
    Tracked env s' := by
  unfold Tracked at h ⊢
  rw [ht, latest_snoc, if_neg he, hr, h]

theorem tracked_same (env : Env) (s s' : State) (h : Tracked env s)
    (hr : s'.libc_sync_file_range = s.libc_sync_file_range) (ht : s'.trace = s.trace) :
    Tracked env s' := by
  unfold Tracked at h ⊢
  rw [ht, hr, h]

theorem tracked_dlsym_assign (env : Env) (n : Sym) (s : State) (h : Tracked env s) :
    Tracked env (dlsym_assign env n s) := by
  by_cases hn : n = Sym.sym_sync_file_range
  · subst hn
    unfold Tracked
    show env.dlsym s.trace Sym.sym_sync_file_range =
      latest_range_lookup env (s.trace ++ [Event.dlsym Sym.sym_sync_file_range])
    rw [latest_snoc, if_pos rfl]
  · refine tracked_snoc env s _ (Event.dlsym n) h ?_ ?_ ?_
    · cases n <;> first | rfl | exact absurd rfl hn
    · cases n <;> rfl
    · intro hh; injection hh with hh; exact hn hh

theorem bind_state_pred {α β : Type} (P : State → Prop) (o : Outcome α)
    (f : α → State → Outcome β) (h1 : P o.state)
    (h2 : ∀ v s1, P s1 → P (f v s1).state) : P (o.bind f).state := by
  cases o with
  | ret v1 s1 => exact h2 v1 s1 h1
  | exit c s1 => exact h1
  | fault s1 => exact h1
  | cancelled s1 => exact h1

theorem tracked_or_die (env : Env) (n : Sym) (s : State) (h : Tracked env s) :
    Tracked env (ASSIGN_DLSYM_OR_DIE env n s).state := by
  have h1 := tracked_dlsym_assign env n s h
  have h2 : Tracked env { dlsym_assign env n s with
      trace := (dlsym_assign env n s).trace ++ [Event.dlerror] } :=
    tracked_snoc env _ _ Event.dlerror h1 rfl rfl (by simp)
  unfold ASSIGN_DLSYM_OR_DIE
  simp only []
  split_ifs
  · exact h1
  · exact h2
  · exact h2

theorem tracked_if_exist (env : Env) (n : Sym) (s : State) (h : Tracked env s) :
    Tracked env (ASSIGN_DLSYM_IF_EXIST env n s).state :=
  tracked_snoc env _ _ Event.dlerror (tracked_dlsym_assign env n s h) rfl rfl (by simp)

theorem tracked_stmt (cfg : Config) (env : Env) (k : Nat) (s : State) (h : Tracked env s) :
    Tracked env (eatmydata_init_stmt cfg env k s).state := by
  match k with
  | 0 => exact tracked_same env s _ h rfl rfl
  | 1 => exact tracked_or_die env _ s h
  | 2 => exact tracked_or_die env _ s h
  | 3 => exact tracked_or_die env _ s h
  | 4 => exact tracked_or_die env _ s h
  | 5 => exact tracked_or_die env _ s h
  | 6 => exact tracked_or_die env _ s h
  | 7 =>
    simp only [eatmydata_init_stmt]
    split_ifs
    · exact tracked_if_exist env _ s h
    · exact h
  | n + 8 => exact tracked_same env s _ h rfl rfl

theorem tracked_init (cfg : Config) (env : Env) (s : State) (h : Tracked env s) :
    Tracked env (eatmydata_init cfg env s).state := by
  rw [init_eq_stmts]
  refine bind_state_pred _ _ _ (tracked_stmt cfg env 0 s h) fun _ s1 h1 => ?_
  refine bind_state_pred _ _ _ (tracked_stmt cfg env 1 s1 h1) fun _ s2 h2 => ?_
  refine bind_state_pred _ _ _ (tracked_stmt cfg env 2 s2 h2) fun _ s3 h3 => ?_
  refine bind_state_pred _ _ _ (tracked_stmt cfg env 3 s3 h3) fun _ s4 h4 => ?_
  refine bind_state_pred _ _ _ (tracked_stmt cfg env 4 s4 h4) fun _ s5 h5 => ?_
  refine bind_state_pred _ _ _ (tracked_stmt cfg env 5 s5 h5) fun _ s6 h6 => ?_
  refine bind_state_pred _ _ _ (tracked_stmt cfg env 6 s6 h6) fun _ s7 h7 => ?_
  refine bind_state_pred _ _ _ (tracked_stmt cfg env 7 s7 h7) fun _ s8 h8 => ?_
  exact tracked_stmt cfg env 8 s8 h8

theorem tracked_is_hungry (cfg : Config) (env : Env) (s : State) (h : Tracked env s) :
    Tracked env (eatmydata_is_hungry cfg env s).state := by
  unfold eatmydata_is_hungry
  refine bind_state_pred _ _ _ ?_ fun _ s1 h1 => ?_
  · split_ifs
    · exact tracked_init cfg env s h
    · exact h
  · cases cfg.CHECK_FILE with
    | none => exact h1
    | some path => exact tracked_snoc env s1 _ (Event.stat path) h1 rfl rfl (by simp)

theorem tracked_REAL (env : Env) (ptr : Nat) (c : Call) (s : State) (h : Tracked env s) :
    Tracked env (REAL env ptr c s).state := by
  unfold REAL
  split_ifs
  · exact h
  · exact tracked_snoc env s _ (Event.real ptr c) h rfl rfl (by simp)

theorem tracked_suppressed (env : Env) (s : State) (h : Tracked env s) :
    Tracked env (suppressed env s).state := by
  unfold suppressed
  simp only []
  split_ifs
  · exact tracked_snoc env s _ (Event.pthread_testcancel s.errno) h rfl rfl (by simp)
  · exact tracked_snoc env s _ (Event.pthread_testcancel s.errno) h rfl rfl (by simp)

theorem tracked_invoke (cfg : Config) (env : Env) (i : Invocation) (s : State)
    (h : Tracked env s) : Tracked env (invoke cfg env i s).state := by
  have hflush : ∀ (ptr : State → Nat) (c : Call), Tracked env
      ((eatmydata_is_hungry cfg env s).bind fun hungry s1 =>
        if hungry ≠ 0 then suppressed env s1 else REAL env (ptr s1) c s1).state := by
    intro ptr c
    refine bind_state_pred _ _ _ (tracked_is_hungry cfg env s h) fun hungry s1 h1 => ?_
    split_ifs
    · exact tracked_suppressed env s1 h1
    · exact tracked_REAL env _ _ s1 h1
  cases i with
  | inv_open p f va =>
    simp only [invoke, eatmydata_open]
    split_ifs
    · exact tracked_same env s _ h rfl rfl
    · exact bind_state_pred _ _ _ (tracked_is_hungry cfg env s h) fun _ s1 h1 =>
        tracked_REAL env _ _ s1 h1
  | inv_open64 p f va =>
    simp only [invoke, eatmydata_open64]
    split_ifs
    · exact tracked_same env s _ h rfl rfl
    · exact bind_state_pred _ _ _ (tracked_is_hungry cfg env s h) fun _ s1 h1 =>
        tracked_REAL env _ _ s1 h1
  | inv_fsync fd => exact hflush (fun s1 => s1.libc_fsync) _
  | inv_sync =>
    rw [invoke_sync_eq]
    refine bind_state_pred _ _ _ (tracked_is_hungry cfg env s h) fun hungry s1 h1 => ?_
    split_ifs
    · exact h1
    · exact bind_state_pred _ _ _ (tracked_REAL env _ _ s1 h1) fun _ s2 h2 => h2
  | inv_fdatasync fd => exact hflush (fun s1 => s1.libc_fdatasync) _
  | inv_msync a l f => exact hflush (fun s1 => s1.libc_msync) _
  | inv_sync_file_range fd o n f => exact hflush (fun s1 => s1.libc_sync_file_range) _

theorem alive_state {α : Type} {o : Outcome α} {s : State} (h : o.alive = some s) :
    o.state = s := by
  cases o with
  | ret v s1 => simpa [Outcome.alive] using h
  | exit c s1 => simp [Outcome.alive] at h
  | fault s1 => simp [Outcome.alive] at h
  | cancelled s1 => simpa [Outcome.alive] using h

theorem run_tracked (cfg : Config) (env : Env) (acts : List Action) (p q : Process)
    (hp : Tracked env p.st) (h : run cfg env acts p = some q) : Tracked env q.st := by
  induction acts generalizing p with
  | nil =>
    simp only [run, Option.some.injEq] at h
    rw [← h]; exact hp
  | cons a rest ih =>
    simp only [run] at h
    cases hs : step cfg env a p with
    | none => rw [hs] at h; simp at h
    | some r =>
      rw [hs] at h
      refine ih r ?_ h
      cases a with
      | population =>
        simp only [step] at hs
        cases ha : (eatmydata_init_stmt cfg env p.pc p.st).alive with
        | none => rw [ha] at hs; simp at hs
        | some s1 =>
          rw [ha] at hs
          simp only [Option.some.injEq] at hs
          rw [← hs, ← alive_state ha]
          exact tracked_stmt cfg env p.pc p.st hp
      | call i =>
        simp only [step] at hs
        cases ha : (invoke cfg env i p.st).alive with
        | none => rw [ha] at hs; simp at hs
        | some s1 =>
          rw [ha] at hs
          simp only [Option.some.injEq] at hs
          rw [← hs, ← alive_state ha]
          exact tracked_invoke cfg env i p.st hp

theorem initial_tracked (env : Env) (errno : Int) :
    Tracked env (Process.initial errno).st := rfl

theorem populated_entry {s : State} (h : s.populated) (n : Sym)
    (hn : n ≠ Sym.sym_sync_file_range) : s.entry n ≠ 0 := by
  obtain ⟨a1, a2, a3, a4, a5, a6⟩ := h
  cases n with
  | sym_open => exact a1
  | sym_open64 => exact a2
  | sym_fsync => exact a3
  | sym_sync => exact a4
  | sym_fdatasync => exact a5
  | sym_msync => exact a6
  | sym_sync_file_range => exact absurd rfl hn

theorem entry_of_trace_update (s : State) (l : List Event) (n : Sym) :
    ({ s with trace := l } : State).entry n = s.entry n := by
  cases n <;> rfl

/-- Every override but `open` and `open64` is the policy check followed by
the suppressed end or by the forward through its own entry. -/
theorem invoke_flush_eq (cfg : Config) (env : Env) (i : Invocation) (s : State)
    (ho : i.is_open = false) :
    ∃ c : Call, ∀ h s1, eatmydata_is_hungry cfg env s = Outcome.ret h s1 →
      (h ≠ 0 → (invoke cfg env i s).faulted = false) ∧
      (h = 0 → invoke cfg env i s =
        (REAL env (s1.entry i.target) c s1).bind fun v s2 =>
          Outcome.ret (if i.target = Sym.sym_sync then 0 else v) s2) := by
  cases i with
  | inv_open p f va => simp [Invocation.is_open] at ho
  | inv_open64 p f va => simp [Invocation.is_open] at ho
  | inv_fsync fd =>
    refine ⟨Call.call_fsync fd, fun h s1 hh => ⟨fun h0 => ?_, fun h0 => ?_⟩⟩
    · simp [invoke, eatmydata_fsync, hh, Outcome.bind, h0, suppressed_safe]
    · subst h0
      simp only [invoke, eatmydata_fsync, hh, Outcome.bind, Invocation.target, State.entry]
      cases REAL env s1.libc_fsync (Call.call_fsync fd) s1 <;> simp
  | inv_sync =>
    refine ⟨Call.call_sync, fun h s1 hh => ⟨fun h0 => ?_, fun h0 => ?_⟩⟩
    · rw [invoke_sync_eq]
      simp [hh, Outcome.bind, h0, Outcome.faulted]
    · subst h0
      rw [invoke_sync_eq]
      simp only [hh, Outcome.bind, Invocation.target, State.entry]
      cases REAL env s1.libc_sync Call.call_sync s1 <;> simp
  | inv_fdatasync fd =>
    refine ⟨Call.call_fdatasync fd, fun h s1 hh => ⟨fun h0 => ?_, fun h0 => ?_⟩⟩
    · simp [invoke, eatmydata_fdatasync, hh, Outcome.bind, h0, suppressed_safe]
    · subst h0
      simp only [invoke, eatmydata_fdatasync, hh, Outcome.bind, Invocation.target, State.entry]
      cases REAL env s1.libc_fdatasync (Call.call_fdatasync fd) s1 <;> simp
  | inv_msync a l f =>
    refine ⟨Call.call_msync a l f, fun h s1 hh => ⟨fun h0 => ?_, fun h0 => ?_⟩⟩
    · simp [invoke, eatmydata_msync, hh, Outcome.bind, h0, suppressed_safe]
    · subst h0
      simp only [invoke, eatmydata_msync, hh, Outcome.bind, Invocation.target, State.entry]
      cases REAL env s1.libc_msync (Call.call_msync a l f) s1 <;> simp
  | inv_sync_file_range fd o n f =>
    refine ⟨Call.call_sync_file_range fd o n f, fun h s1 hh => ⟨fun h0 => ?_, fun h0 => ?_⟩⟩
    · simp [invoke, eatmydata_sync_file_range, hh, Outcome.bind, h0, suppressed_safe]
    · subst h0
      simp only [invoke, eatmydata_sync_file_range, hh, Outcome.bind, Invocation.target,
        State.entry]
      cases REAL env s1.libc_sync_file_range (Call.call_sync_file_range fd o n f) s1 <;> simp

theorem bind_ret_faulted {α β : Type} (o : Outcome α) (g : α → β) :
    (o.bind fun v s2 => Outcome.ret (g v) s2).faulted = o.faulted := by
  cases o <;> rfl

/-- A flush override calls through `NULL` exactly when the policy check
returns 0 and the entry it then forwards through is `NULL`. -/
theorem flush_faulted_iff (cfg : Config) (env : Env) (i : Invocation) (s : State)
    (ho : i.is_open = false) :
    (invoke cfg env i s).faulted = true ↔
      ∃ s1, eatmydata_is_hungry cfg env s = Outcome.ret 0 s1 ∧ s1.entry i.target = 0 := by
  obtain ⟨c, hc⟩ := invoke_flush_eq cfg env i s ho
  rcases is_hungry_outcome cfg env s with ⟨h, s1, hh⟩ | ⟨s1, hh⟩
  · obtain ⟨ha, hb⟩ := hc h s1 hh
    by_cases h0 : h = 0
    · subst h0
      rw [hb rfl, bind_ret_faulted, REAL_faulted]
      constructor
      · intro he; exact ⟨s1, hh, he⟩
      · rintro ⟨s2, h2, he⟩
        rw [hh] at h2
        simp only [Outcome.ret.injEq, true_and] at h2
        rw [h2]; exact he
    · rw [ha h0]
      constructor
      · intro hf; exact absurd hf (by simp)
      · rintro ⟨s2, h2, -⟩
        rw [hh] at h2
        simp only [Outcome.ret.injEq] at h2
        exact absurd h2.1 h0
  · have hf : (invoke cfg env i s).faulted = false := by
      cases i with
      | inv_open p f va => simp [Invocation.is_open] at ho
      | inv_open64 p f va => simp [Invocation.is_open] at ho
      | inv_sync => rw [invoke_sync_eq, hh]; rfl
      | inv_fsync fd => simp [invoke, eatmydata_fsync, hh, Outcome.bind, Outcome.faulted]
      | inv_fdatasync fd =>
        simp [invoke, eatmydata_fdatasync, hh, Outcome.bind, Outcome.faulted]
      | inv_msync a l f => simp [invoke, eatmydata_msync, hh, Outcome.bind, Outcome.faulted]
      | inv_sync_file_range fd o n f =>
        simp [invoke, eatmydata_sync_file_range, hh, Outcome.bind, Outcome.faulted]
    rw [hf]
    constructor
    · intro hx; exact absurd hx (by simp)
    · rintro ⟨s2, h2, -⟩
      rw [hh] at h2
      simp at h2

/-- The entry found after the policy check, for a name other than
`sync_file_range`: the entry before when `libc_open` was resolved, a resolved
one otherwise. -/
theorem entry_after_hungry {cfg : Config} {env : Env} {s s1 : State} {h : Int}
    (hh : eatmydata_is_hungry cfg env s = Outcome.ret h s1) (n : Sym) :
    (s.libc_open ≠ 0 ∧ s1.entry n = s.entry n) ∨
    (s.libc_open = 0 ∧ (n ≠ Sym.sym_sync_file_range → s1.entry n ≠ 0)) := by
  rcases is_hungry_ret_table hh with ⟨hp, e⟩ | ⟨hp, hpop, -⟩
  · left
    refine ⟨hp, ?_⟩
    rw [e, entry_of_trace_update]
  · right
    exact ⟨hp, fun hn => populated_entry hpop n hn⟩

/-- No override other than `sync_file_range` calls through `NULL` from a state
in which `libc_open` is `NULL` or its own entry is resolved. -/
theorem invoke_safe_of_entry (cfg : Config) (env : Env) (i : Invocation) (s : State)
    (hi : i.is_range = false) (hs : s.libc_open = 0 ∨ s.entry i.target ≠ 0) :
    (invoke cfg env i s).faulted = false := by
  have hn : i.target ≠ Sym.sym_sync_file_range := by
    cases i <;> simp_all [Invocation.is_range, Invocation.target]
  have key : ∀ h s1, eatmydata_is_hungry cfg env s = Outcome.ret h s1 →
      s1.entry i.target ≠ 0 := by
    intro h s1 hh
    rcases entry_after_hungry hh i.target with ⟨hp, e⟩ | ⟨-, e⟩
    · rw [e]
      rcases hs with hs | hs
      · exact absurd hs hp
      · exact hs
    · exact e hn
  by_cases ho : i.is_open = true
  · cases i with
    | inv_open p f va =>
      simp only [invoke, eatmydata_open]
      split_ifs
      · rfl
      · exact hungry_bind_safe fun h s1 hh => REAL_safe _ _ _ _ (key h s1 hh)
    | inv_open64 p f va =>
      simp only [invoke, eatmydata_open64]
      split_ifs
      · rfl
      · exact hungry_bind_safe fun h s1 hh => REAL_safe _ _ _ _ (key h s1 hh)
    | _ => simp [Invocation.is_open] at ho
  · have ho' : i.is_open = false := by simpa using ho
    by_contra hf
    have hf' : (invoke cfg env i s).faulted = true := by simpa using hf
    obtain ⟨s1, hh, he⟩ := (flush_faulted_iff cfg env i s ho').mp hf'
    exact key 0 s1 hh he

/-- Without `CHECK_FILE` the flush overrides never forward, in any state. -/
theorem invoke_safe_unconditional (cfg : Config) (env : Env) (i : Invocation) (s : State)
    (hc : cfg.CHECK_FILE = none) (hi : i.is_open = false) :
    (invoke cfg env i s).faulted = false := by
  by_contra hf
  have hf' : (invoke cfg env i s).faulted = true := by simpa using hf
  obtain ⟨s1, hh, -⟩ := (flush_faulted_iff cfg env i s hi).mp hf'
  obtain ⟨s0, -, h1⟩ := is_hungry_ret hh
  rcases h1 with ⟨-, h1, -⟩ | ⟨path, hc', -, -⟩
  · exact absurd h1 (by decide)
  · rw [hc] at hc'; exact absurd hc' (by simp)

/-- In a reachable process an entry other than that of `sync_file_range` is
resolved, or `libc_open` is `NULL`, unless the first population is running
(`initing` set) and stands after the lookup of `open` and not after the lookup
of that entry. -/
theorem inv_entry {p : Process} (hp : Inv p) (n : Sym) (hn : n ≠ Sym.sym_sync_file_range)
    (h : p.st.initing = 0 ∨ p.pc ≤ 1 ∨ n.stmt < p.pc) :
    p.st.libc_open = 0 ∨ p.st.entry n ≠ 0 := by
  obtain ⟨-, hmode⟩ := hp
  rcases hmode with ⟨hpop, -⟩ | ⟨hnull, -, -⟩ | ⟨hi, h1, hone, p1, p2, p3, p4, p5, p6⟩
  · exact Or.inr (populated_entry hpop n hn)
  · exact Or.inl hnull
  · rcases h with h | h | h
    · exact absurd h hi
    · exact Or.inl (hone (by omega))
    · right
      cases n with
      | sym_open => exact p1 (by simp only [Sym.stmt] at h; omega)
      | sym_open64 => exact p2 (by simp only [Sym.stmt] at h; omega)
      | sym_fsync => exact p3 (by simp only [Sym.stmt] at h; omega)
      | sym_sync => exact p4 (by simp only [Sym.stmt] at h; omega)
      | sym_fdatasync => exact p5 (by simp only [Sym.stmt] at h; omega)
      | sym_msync => exact p6 (by simp only [Sym.stmt] at h; omega)
      | sym_sync_file_range => exact absurd rfl hn

/-- The pointer `eatmydata_init` leaves in the entry of `sync_file_range` when
it is compiled with `HAVE_SYNC_FILE_RANGE` and returns: the one looked up after
the six mandatory lookups. -/
theorem init_ret_range {cfg : Config} {env : Env} {s s1 : State} {v : Unit}
    (hv : cfg.HAVE_SYNC_FILE_RANGE = true)
    (h : eatmydata_init cfg env s = Outcome.ret v s1) :
    s1.libc_sync_file_range =
      env.dlsym (s.trace ++ lookup_events mandatory) Sym.sym_sync_file_range := by
  rw [init_eq_resolve] at h
  obtain ⟨_, s6, h6, h⟩ := bind_eq_ret h
  obtain ⟨_, s7, h7, h⟩ := bind_eq_ret h
  have t6 : s6.trace = s.trace ++ lookup_events mandatory := by
    rcases resolve_or_die_cases env mandatory { s with initing := 1 } (by decide) with
      ⟨s', h', -, t', -, -⟩ | ⟨pre, n, post, s', -, h', -⟩
    · rw [h6] at h'
      simp only [Outcome.ret.injEq, true_and] at h'
      rw [h']; exact t'
    · rw [h6] at h'
      simp at h'
  rw [if_pos hv] at h7
  simp only [ASSIGN_DLSYM_IF_EXIST, Outcome.ret.injEq, true_and] at h7
  simp only [Outcome.ret.injEq] at h
  rw [← h.2, ← h7, ← t6]
  rfl

/-- C10, amended. In every process reachable from the initial one (all entries
`NULL`, `initing = 0`) by any interleaving of population statements and
override calls, calls in the middle of population included, and in either
build:
* `open` and `open64` never call through a `NULL` entry (in the middle of
  population they fail with `EFAULT` instead of forwarding);
* without `CHECK_FILE` no override ever calls through a `NULL` entry, the
  flush overrides never forwarding at all;
* `fsync`, `sync`, `fdatasync` and `msync` do not call through a `NULL` entry
  when `initing` is 0, nor before the second statement of a population, nor
  once the running population has executed the lookup of their own entry; they
  call through `NULL` exactly when the policy check returns 0 while `libc_open`
  is resolved and their own entry is not;
* `sync_file_range` calls through `NULL` exactly when the policy check returns
  0 and the latest lookup of `sync_file_range` made so far, the one of the
  population the call itself may run included, returned `NULL` or none was
  made; in particular a first call, with `libc_open` still `NULL`, does not
  when the lookup it triggers returns a non-`NULL` pointer. -/
theorem no_call_through_unresolved_entry (cfg : Config) (env : Env) (errno : Int)
    (acts : List Action) (p : Process)
    (hr : run cfg env acts (Process.initial errno) = some p) (i : Invocation) :
    (i.is_open = true → (invoke cfg env i p.st).faulted = false) ∧
    (cfg.CHECK_FILE = none → (invoke cfg env i p.st).faulted = false) ∧
    (i.is_range = false → (p.st.initing = 0 ∨ p.pc ≤ 1 ∨ i.target.stmt < p.pc) →
      (invoke cfg env i p.st).faulted = false) ∧
    (i.is_open = false → i.is_range = false →
      ((invoke cfg env i p.st).faulted = true ↔
        p.st.libc_open ≠ 0 ∧ p.st.entry i.target = 0 ∧
        ∃ s1, eatmydata_is_hungry cfg env p.st = Outcome.ret 0 s1)) ∧
    (i.is_range = true →
      ((invoke cfg env i p.st).faulted = true ↔
        ∃ s1, eatmydata_is_hungry cfg env p.st = Outcome.ret 0 s1 ∧
          latest_range_lookup env s1.trace = 0)) ∧
    (i.is_range = true → p.st.libc_open = 0 → cfg.HAVE_SYNC_FILE_RANGE = true →
      env.dlsym (p.st.trace ++ lookup_events mandatory) Sym.sym_sync_file_range ≠ 0 →
      (invoke cfg env i p.st).faulted = false) := by
  have hinv := run_inv cfg env acts _ p (initial_inv errno) hr
  have htr := run_tracked cfg env acts _ p (initial_tracked env errno) hr
  have hsafe : i.is_range = false →
      (p.st.initing = 0 ∨ p.pc ≤ 1 ∨ i.target.stmt < p.pc) →
      (invoke cfg env i p.st).faulted = false := by
    intro hi hc
    have hn : i.target ≠ Sym.sym_sync_file_range := by
      cases i <;> simp_all [Invocation.is_range, Invocation.target]
    exact invoke_safe_of_entry cfg env i p.st hi (inv_entry hinv i.target hn hc)
  have hopen : i.is_open = true → (invoke cfg env i p.st).faulted = false := by
    intro ho
    by_cases hi : p.st.initing = 0
    · exact hsafe (by cases i <;> simp_all [Invocation.is_open, Invocation.is_range])
        (Or.inl hi)
    · cases i <;> simp_all [Invocation.is_open, invoke, eatmydata_open, eatmydata_open64,
        Outcome.faulted]
  have hrange : i.is_range = true → i.is_open = false ∧ i.target = Sym.sym_sync_file_range := by
    intro hi
    cases i <;> simp_all [Invocation.is_range, Invocation.is_open, Invocation.target]
  refine ⟨hopen, ?_, hsafe, ?_, ?_, ?_⟩
  · intro hc
    by_cases ho : i.is_open = true
    · exact hopen ho
    · exact invoke_safe_unconditional cfg env i p.st hc (by simpa using ho)
  · intro ho hi
    have hn : i.target ≠ Sym.sym_sync_file_range := by
      cases i <;> simp_all [Invocation.is_range, Invocation.target]
    rw [flush_faulted_iff cfg env i p.st ho]
    constructor
    · rintro ⟨s1, hh, he⟩
      rcases entry_after_hungry hh i.target with ⟨hp, e⟩ | ⟨-, e⟩
      · exact ⟨hp, by rw [← e]; exact he, s1, hh⟩
      · exact absurd he (e hn)
    · rintro ⟨hp, he, s1, hh⟩
      refine ⟨s1, hh, ?_⟩
      rcases entry_after_hungry hh i.target with ⟨-, e⟩ | ⟨hp', -⟩
      · rw [e]; exact he
      · exact absurd hp' hp
  · intro hi
    obtain ⟨ho, ht⟩ := hrange hi
    rw [flush_faulted_iff cfg env i p.st ho, ht]
    have key : ∀ s1, eatmydata_is_hungry cfg env p.st = Outcome.ret 0 s1 →
        s1.libc_sync_file_range = latest_range_lookup env s1.trace := by
      intro s1 hh
      have := tracked_is_hungry cfg env p.st htr
      rw [hh] at this
      exact this
    constructor
    · rintro ⟨s1, hh, he⟩
      exact ⟨s1, hh, by rw [← key s1 hh]; exact he⟩
    · rintro ⟨s1, hh, he⟩
      exact ⟨s1, hh, by show s1.libc_sync_file_range = 0; rw [key s1 hh]; exact he⟩
  · intro hi hp hv hl
    obtain ⟨ho, ht⟩ := hrange hi
    by_contra hf
    have hf' : (invoke cfg env i p.st).faulted = true := by simpa using hf
    obtain ⟨s1, hh, he⟩ := (flush_faulted_iff cfg env i p.st ho).mp hf'
    rw [ht] at he
    obtain ⟨s0, h0, h1⟩ := is_hungry_ret hh
    rcases h0 with ⟨hp', -⟩ | ⟨-, hinit⟩
    · exact hp' hp
    · have hr0 := init_ret_range hv hinit
      have e : s1.libc_sync_file_range = s0.libc_sync_file_range := by
        rcases h1 with ⟨-, -, rfl⟩ | ⟨path, -, -, rfl⟩ <;> rfl
      apply hl
      rw [← hr0, ← e]
      exact he

/-- Witness of the amended C10: `open64` called after the first two statements
of the population, when `libc_open64` is still `NULL`. -/
theorem no_call_through_unresolved_entry_witness :
    (invoke cfg_marker env_resolving (Invocation.inv_open64 "/etc/motd" 0 0)
      { State.initial 0 with
        libc_open := 101, initing := 1,
        trace := [Event.dlsym Sym.sym_open, Event.dlerror] }).faulted = false :=
  (no_call_through_unresolved_entry cfg_marker env_resolving 0
    [Action.population, Action.population]
    { st := { State.initial 0 with
              libc_open := 101, initing := 1,
              trace := [Event.dlsym Sym.sym_open, Event.dlerror] },
      pc := 2 }
    rfl (Invocation.inv_open64 "/etc/motd" 0 0)).1 rfl

end Eatmydata
